import Mathlib

/-!
# Verification of the conditional document-assembly core

A shallow embedding, in Lean 4, of the condition evaluator
(`src/motor_regras.py`), the textual condition evaluator
(`src/avaliador_condicoes.py`) and the document processor
(`src/documento_processor.py`) of this repository, together with theorems
settling the specification claims about them.

Modelling conventions:
* Python strings are modelled as `Texto := List Char` (Python indexes/slices
  by code point, as `List Char` does).  `str.strip`, `str.lower`, `str.split`
  and friends are embedded below; `lower`/`isupper`/`\w` use their ASCII
  behaviour (all concrete inputs exercised by the theorems are ASCII).
* Python scalar values are modelled by `Val` (None, bool, int, float, str)
  and record values by `Value`, where collection values are modelled one
  level deep (flat lists of scalars) — the rule files only use flat
  membership lists.  IEEE floats are modelled as exact rationals.
* Fallible Python code returns `Except`; a raised exception is an `error`.
* External collaborators are parameters: `reMatch` stands for `re.match`
  inside the `matches` operator, `pyEval` for Python's `eval` fallback,
  `fmtMon` for the locale-backed `_formatar_valor_monetario`, and the field
  metadata provider (`obter_campo_por_nome` consulting the relational CSV
  tables, which are data files outside the sources) is a function
  `Texto → Option CampoInfo`.
-/

set_option linter.unusedVariables false

abbrev Texto := List Char

/-- Python `\s` / `str.strip` whitespace (ASCII part: space, tab, newline,
carriage return, vertical tab, form feed). -/
def pyIsSpace (c : Char) : Bool :=
  c = ' ' || c = '\t' || c = '\n' || c = '\r' || c = Char.ofNat 11 || c = Char.ofNat 12

/-- Python `str.strip()` (no argument): drop whitespace at both ends. -/
def pyStrip (t : Texto) : Texto :=
  ((t.dropWhile pyIsSpace).reverse.dropWhile pyIsSpace).reverse

/-- Python `str.lower()` (ASCII behaviour). -/
def pyLower (t : Texto) : Texto :=
  t.map Char.toLower

/-- Python `sub in t` for strings (substring containment). -/
def containsTexto (t sub : Texto) : Bool :=
  match t with
  | [] => sub.isEmpty
  | _ :: rest => sub.isPrefixOf t || containsTexto rest sub

/-- Python `str.isdigit()` (ASCII digits). -/
def pyIsDigitTexto (t : Texto) : Bool :=
  !t.isEmpty && t.all Char.isDigit

/-- Numeric value of a digit string. -/
def digitosValor (t : Texto) : Nat :=
  t.foldl (fun a c => a * 10 + (c.toNat - 48)) 0

/-- Python `\w` word character (ASCII behaviour). -/
def ehCaractereDePalavra (c : Char) : Bool :=
  c.isAlphanum || c = '_'

/-- Lexicographic `<` on strings by code point, as Python compares `str`. -/
def textoLt : Texto → Texto → Bool
  | [], [] => false
  | [], _ :: _ => true
  | _ :: _, [] => false
  | a :: as, b :: bs => if a < b then true else if b < a then false else textoLt as bs

/-- Lexicographic `<=` on strings by code point. -/
def textoLe : Texto → Texto → Bool
  | [], _ => true
  | _ :: _, [] => false
  | a :: as, b :: bs => if a < b then true else if b < a then false else textoLe as bs

/-! ## Python values -/

/-- A Python scalar: `None`, `bool`, `int`, `float` (as an exact rational) or
`str`. -/
inductive Val where
  | vnone
  | vbool (b : Bool)
  | vint (n : Int)
  | vfloat (q : ℚ)
  | vstr (s : Texto)
  deriving DecidableEq

/-- A record value: a scalar or a (flat) list of scalars. -/
inductive Value where
  | prim (v : Val)
  | lista (l : List Val)
  deriving DecidableEq

def VNone : Value := .prim .vnone
def VBool (b : Bool) : Value := .prim (.vbool b)
def VInt (n : Int) : Value := .prim (.vint n)
def VFloat (q : ℚ) : Value := .prim (.vfloat q)
def VStr (s : String) : Value := .prim (.vstr s.toList)
def VStrT (s : Texto) : Value := .prim (.vstr s)

/-- Numeric view used by Python comparisons and arithmetic: `bool` is a
subtype of `int` in Python (`True == 1`). -/
def Val.comoNumero : Val → Option ℚ
  | .vbool b => some (if b then 1 else 0)
  | .vint n => some (n : ℚ)
  | .vfloat q => some q
  | _ => none

/-- Python `==` on scalars: numeric cross-type equality, string equality,
`None` only equal to `None`, everything else unequal. -/
def valEq (a b : Val) : Bool :=
  match a.comoNumero, b.comoNumero with
  | some x, some y => x = y
  | _, _ =>
    match a, b with
    | .vnone, .vnone => true
    | .vstr s, .vstr t => s = t
    | _, _ => false

/-- Python `<` on scalars; incomparable operands raise `TypeError`. -/
def valLt (a b : Val) : Except Unit Bool :=
  match a.comoNumero, b.comoNumero with
  | some x, some y => .ok (x < y)
  | _, _ =>
    match a, b with
    | .vstr s, .vstr t => .ok (textoLt s t)
    | _, _ => .error ()

/-- Python `<=` on scalars; incomparable operands raise `TypeError`. -/
def valLe (a b : Val) : Except Unit Bool :=
  match a.comoNumero, b.comoNumero with
  | some x, some y => .ok (x ≤ y)
  | _, _ =>
    match a, b with
    | .vstr s, .vstr t => .ok (textoLe s t)
    | _, _ => .error ()

/-- Python `==` on record values (lists compare elementwise). -/
def pyEqVal (a b : Value) : Bool :=
  match a, b with
  | .prim x, .prim y => valEq x y
  | .lista x, .lista y =>
      x.length = y.length && (x.zip y).all (fun p => valEq p.1 p.2)
  | _, _ => false

/-- Python `<` on lists: first non-equal pair decides (possibly raising);
a strict prefix is smaller. -/
def listaLt : List Val → List Val → Except Unit Bool
  | [], [] => .ok false
  | [], _ :: _ => .ok true
  | _ :: _, [] => .ok false
  | a :: as, b :: bs => if valEq a b then listaLt as bs else valLt a b

/-- Python `<=` on lists. -/
def listaLe : List Val → List Val → Except Unit Bool
  | [], _ => .ok true
  | _ :: _, [] => .ok false
  | a :: as, b :: bs => if valEq a b then listaLe as bs else valLt a b

/-- Python `<` on record values; a list and a scalar are incomparable. -/
def pyLtVal (a b : Value) : Except Unit Bool :=
  match a, b with
  | .prim x, .prim y => valLt x y
  | .lista x, .lista y => listaLt x y
  | _, _ => .error ()

/-- Python `<=` on record values. -/
def pyLeVal (a b : Value) : Except Unit Bool :=
  match a, b with
  | .prim x, .prim y => valLe x y
  | .lista x, .lista y => listaLe x y
  | _, _ => .error ()

/-- Python `a in b`: list membership via `==`, substring test for strings,
`TypeError` for non-containers. -/
def pyInVal (a b : Value) : Except Unit Bool :=
  match b with
  | .lista l => .ok (l.any (fun e => pyEqVal a (.prim e)))
  | .prim (.vstr s) =>
      match a with
      | .prim (.vstr t) => .ok (containsTexto s t)
      | _ => .error ()
  | _ => .error ()

/-- Python truthiness. -/
def pyTruthy (v : Value) : Bool :=
  match v with
  | .prim .vnone => false
  | .prim (.vbool b) => b
  | .prim (.vint n) => n ≠ 0
  | .prim (.vfloat q) => q ≠ 0
  | .prim (.vstr s) => !s.isEmpty
  | .lista l => !l.isEmpty

/-- Decimal rendering of a rational, approximating Python `str(float)`:
integer rationals render as `n.0`, other denominators are expanded up to 30
fractional digits (exact for every float parsed from a decimal literal). -/
def ratParaTexto (q : ℚ) : Texto :=
  if q < 0 then '-' :: ratParaTextoNat (-q) else ratParaTextoNat q
where
  fracDigitos : Nat → Nat → Nat → Texto
    | 0, _, _ => []
    | _, 0, _ => []
    | fuel + 1, resto, den =>
        let d := resto * 10 / den
        (Char.ofNat (48 + d)) :: fracDigitos fuel (resto * 10 % den) den
  ratParaTextoNat (q : ℚ) : Texto :=
    let ip : Nat := q.num.toNat / q.den
    let resto : Nat := q.num.toNat % q.den
    if resto = 0 then (toString ip).toList ++ ".0".toList
    else (toString ip).toList ++ '.' :: fracDigitos 30 resto q.den

/-- Python `str()` of a scalar. -/
def valStr (v : Val) : Texto :=
  match v with
  | .vnone => "None".toList
  | .vbool true => "True".toList
  | .vbool false => "False".toList
  | .vint n => (toString n).toList
  | .vfloat q => ratParaTexto q
  | .vstr s => s

/-- Python `repr()` of a scalar (list elements are rendered with `repr`). -/
def valRepr (v : Val) : Texto :=
  match v with
  | .vstr s => '\'' :: s ++ ['\'']
  | _ => valStr v

/-- Python `str()` of a record value. -/
def pyStr (v : Value) : Texto :=
  match v with
  | .prim x => valStr x
  | .lista l => '[' :: (List.intercalate ", ".toList (l.map valRepr)) ++ [']']

/-! ## Data records -/

/-- A data record: field name to value, as an association list (a Python
dict with unique keys). -/
abbrev Dados := List (Texto × Value)

def lookupDados (dados : Dados) (k : Texto) : Option Value :=
  match dados with
  | [] => none
  | (k', v) :: rest => if k' = k then some v else lookupDados rest k

/-! ## The placeholder scanner

`re.finditer(r'{{[\s]*([^{}]+?)[\s]*}}', texto)` finds, scanning left to
right, every island `{{interior}}` where the interior is a nonempty run of
non-brace characters ending at the *first* following `}}` (the lazy group
plus the greedy whitespace classes always combine to exactly that island,
and `group(1)` is the interior up to surrounding whitespace; every caller
applies `.strip()` to it, so the scanner below returns the raw interior).
The scanner is a direct left-to-right automaton over the characters. -/

inductive EstadoScan where
  | fora
  | umaChave
  | dentro (inicio : Nat) (acc : Texto)
  | dentroFecha (inicio : Nat) (acc : Texto)

/-- One pass of the placeholder scanner: returns `(start, end, interior)`
for every regex match, `end` exclusive, in order.  `finditer` retries at
every later position after a failed attempt, so inside a run of
consecutive `{` the two braces opening a match are the *last* two of the
run: right after `{{` (state `dentro` with an empty accumulator) a further
`{` shifts the candidate start one to the right instead of discarding
it. -/
def scanPlaceholdersGo : Texto → Nat → EstadoScan → List (Nat × Nat × Texto)
  | [], _, _ => []
  | c :: rest, i, .fora =>
      if c = '{' then scanPlaceholdersGo rest (i + 1) .umaChave
      else scanPlaceholdersGo rest (i + 1) .fora
  | c :: rest, i, .umaChave =>
      if c = '{' then scanPlaceholdersGo rest (i + 1) (.dentro (i - 1) [])
      else scanPlaceholdersGo rest (i + 1) .fora
  | c :: rest, i, .dentro s acc =>
      if c = '{' then
        if acc.isEmpty then scanPlaceholdersGo rest (i + 1) (.dentro (i - 1) [])
        else scanPlaceholdersGo rest (i + 1) .umaChave
      else if c = '}' then scanPlaceholdersGo rest (i + 1) (.dentroFecha s acc)
      else scanPlaceholdersGo rest (i + 1) (.dentro s (c :: acc))
  | c :: rest, i, .dentroFecha s acc =>
      if c = '}' then
        if acc.isEmpty then scanPlaceholdersGo rest (i + 1) .fora
        else (s, i + 1, acc.reverse) :: scanPlaceholdersGo rest (i + 1) .fora
      else if c = '{' then scanPlaceholdersGo rest (i + 1) .umaChave
      else scanPlaceholdersGo rest (i + 1) .fora

def scanPlaceholders (t : Texto) : List (Nat × Nat × Texto) :=
  scanPlaceholdersGo t 0 .fora

/-- A stripped placeholder name denotes a section marker when it starts with
`#` or `/`. -/
def ehMarcadorSecao (nome : Texto) : Bool :=
  match nome with
  | c :: _ => c = '#' || c = '/'
  | [] => false

/-- Section start marker `{{#id}}`: the regex
`{{[\s]*#([^{}]+?)[\s]*}}` matches exactly the islands whose interior, after
leading whitespace, is `#` followed by at least one character; the captured
id is that remainder stripped. -/
def marcadorInicioId (interior : Texto) : Option Texto :=
  match interior.dropWhile pyIsSpace with
  | '#' :: resto => if resto.isEmpty then none else some (pyStrip resto)
  | _ => none

/-- Section end marker `{{/id}}`, analogous. -/
def marcadorFimId (interior : Texto) : Option Texto :=
  match interior.dropWhile pyIsSpace with
  | '/' :: resto => if resto.isEmpty then none else some (pyStrip resto)
  | _ => none

/-! ## `src/motor_regras.py` — the rules engine -/

/-- A condition dictionary: the keys read by `avaliar_condicao` and its
helpers (`tipo`, `condicoes`, `campo`, `operador`, `valor`); an absent key is
`none` (`condicoes` defaults to `[]`). -/
inductive Condicao where
  | mk (tipo : Option Texto) (condicoes : List Condicao) (campo : Option Texto)
       (operador : Option Texto) (valor : Option Value)

/-- A leaf condition `{"campo": …, "operador": …, "valor": …}`. -/
def Condicao.simples (campo operador : Texto) (valor : Value) : Condicao :=
  .mk none [] (some campo) (some operador) (some valor)

/-- A composite condition `{"tipo": …, "condicoes": […]}`. -/
def Condicao.composta (tipo : Texto) (condicoes : List Condicao) : Condicao :=
  .mk (some tipo) condicoes none none none

/-- The empty condition dictionary `{}` (`if not condicao: return True`). -/
def Condicao.vazia (c : Condicao) : Bool :=
  match c with
  | .mk tipo condicoes campo operador valor =>
      tipo.isNone && condicoes.isEmpty && campo.isNone && operador.isNone && valor.isNone

/-- `RegraInvalidaError` (diagnostic messages elided). -/
inductive RegraErr where
  | invalida
  deriving DecidableEq

/-- Keys of `self.operadores_logicos`. -/
def operadoresLogicos : List Texto :=
  ["and".toList, "or".toList, "not".toList]

/-- Keys of `self.operadores`. -/
def operadoresComparacao : List Texto :=
  ["==".toList, "!=".toList, ">".toList, "<".toList, ">=".toList, "<=".toList,
   "in".toList, "not_in".toList, "contains".toList, "not_contains".toList,
   "startswith".toList, "endswith".toList, "matches".toList,
   "is_empty".toList, "is_not_empty".toList]

/-- The comparison lambdas of `self.operadores`, applied to
`(valor_atual, valor_esperado)`.  `reMatch` abstracts `re.match` (which can
also raise on a malformed pattern). -/
def aplicarOperador (reMatch : Texto → Texto → Except Unit Bool)
    (op : Texto) (a b : Value) : Except Unit Bool :=
  if op = "==".toList then .ok (pyEqVal a b)
  else if op = "!=".toList then .ok (!pyEqVal a b)
  else if op = ">".toList then pyLtVal b a
  else if op = "<".toList then pyLtVal a b
  else if op = ">=".toList then pyLeVal b a
  else if op = "<=".toList then pyLeVal a b
  else if op = "in".toList then pyInVal a b
  else if op = "not_in".toList then (pyInVal a b).map (fun r => !r)
  else if op = "contains".toList then
    match a with
    | .prim (.vstr s) => (pyInVal b (VStrT s))
    | _ => .ok false
  else if op = "not_contains".toList then
    match a with
    | .prim (.vstr s) => (pyInVal b (VStrT s)).map (fun r => !r)
    | _ => .ok false
  else if op = "startswith".toList then
    match a with
    | .prim (.vstr s) =>
        match b with
        | .prim (.vstr p) => .ok (p.isPrefixOf s)
        | _ => .error ()
    | _ => .ok false
  else if op = "endswith".toList then
    match a with
    | .prim (.vstr s) =>
        match b with
        | .prim (.vstr p) => .ok (p.isSuffixOf s)
        | _ => .error ()
    | _ => .ok false
  else if op = "matches".toList then
    match a, b with
    | .prim (.vstr s), .prim (.vstr p) => reMatch p s
    | _, _ => .ok false
  else if op = "is_empty".toList then
    .ok (a = VNone || pyEqVal a (VStrT []) ||
         (match a with | .lista l => l.isEmpty | _ => false))
  else if op = "is_not_empty".toList then
    .ok (!(a = VNone) && !pyEqVal a (VStrT []) &&
         (match a with | .lista l => !l.isEmpty | _ => true))
  else .error ()

/-- `${…}` reference form tested first by `_obter_valor_campo`. -/
def ehRefEspecial (campo : Texto) : Bool :=
  "$\x7b".toList.isPrefixOf campo && "\x7d".toList.isSuffixOf campo

/-- A quoted literal `"…"` or `'…'`. -/
def entreAspas (q : Char) (campo : Texto) : Bool :=
  [q].isPrefixOf campo && [q].isSuffixOf campo

/-- The `inf`/`infinity`/`nan` spellings Python `float()` also accepts
(case-insensitive, optional sign and surrounding whitespace).  Their values
are not representable in `ℚ`, so they are carried as a separate predicate
and excluded explicitly wherever a theorem assumes a field name is not a
float literal. -/
def ehInfNan (t : Texto) : Bool :=
  let s :=
    match pyLower (pyStrip t) with
    | '-' :: r => r
    | '+' :: r => r
    | r => r
  s = "inf".toList || s = "infinity".toList || s = "nan".toList

/-- Python `float(campo)` on a finite decimal literal: optional surrounding
whitespace and sign, digits with an optional point, optional exponent.  The
non-finite spellings `float()` additionally accepts are the separate
predicate `ehInfNan`, since `ℚ` has no value for them. -/
def pyParseFloat (t : Texto) : Option ℚ :=
  let s := pyStrip t
  let (neg, s1) :=
    match s with
    | '-' :: r => (true, r)
    | '+' :: r => (false, r)
    | r => (false, r)
  let (ds, s2) := s1.span Char.isDigit
  let (frac, s3) :=
    match s2 with
    | '.' :: r =>
        let (fs, r') := r.span Char.isDigit
        (some fs, r')
    | r => (none, r)
  let mantissaOk :=
    match frac with
    | none => !ds.isEmpty
    | some fs => !ds.isEmpty || !fs.isEmpty
  if !mantissaOk then none
  else
    let base : ℚ := (digitosValor ds : ℚ) +
      (match frac with
       | none => 0
       | some fs => (digitosValor fs : ℚ) / ((10 : ℚ) ^ fs.length))
    let valorExp : Option ℚ :=
      match s3 with
      | [] => some base
      | e :: r =>
          if e = 'e' || e = 'E' then
            let (negE, r1) :=
              match r with
              | '-' :: r' => (true, r')
              | '+' :: r' => (false, r')
              | r' => (false, r')
            let (es, r2) := r1.span Char.isDigit
            if es.isEmpty || !r2.isEmpty then none
            else if negE then some (base / ((10 : ℚ) ^ digitosValor es))
            else some (base * ((10 : ℚ) ^ digitosValor es))
          else none
    valorExp.map (fun q => if neg then -q else q)

/-- `_obter_valor_campo`: resolve a condition field against the record —
`${…}` references, quoted/numeric/boolean literals, then the record, then
the context, then `None`. -/
def obterValorCampo (campo : Texto) (dados contexto : Dados) : Value :=
  if ehRefEspecial campo then
    let ref := (campo.drop 2).dropLast
    match lookupDados dados ref with
    | some v => v
    | none =>
        match lookupDados contexto ref with
        | some v => v
        | none => VNone
  else if entreAspas '"' campo then VStrT ((campo.drop 1).dropLast)
  else if entreAspas '\'' campo then VStrT ((campo.drop 1).dropLast)
  else if pyIsDigitTexto campo then VInt (digitosValor campo)
  else
    match pyParseFloat campo with
    | some q => VFloat q
    | none =>
      if pyLower campo = "true".toList then VBool true
      else if pyLower campo = "false".toList then VBool false
      else if pyLower campo = "null".toList || pyLower campo = "none".toList then VNone
      else
        match lookupDados dados campo with
        | some v => v
        | none =>
            match lookupDados contexto campo with
            | some v => v
            | none => VNone

/-- Python falsy test for an optional string (`not campo`). -/
def optFalsy (o : Option Texto) : Bool :=
  match o with
  | none => true
  | some t => t.isEmpty

/-- `_avaliar_condicao_simples`: validate the leaf, resolve the field, apply
the operator; a `TypeError` from the comparison is re-raised wrapped as
`RegraInvalidaError`.  `condicao.get("valor")` reads both an absent key and
a JSON null as Python `None`, and outside the emptiness operators the
`valor_esperado is None` guard raises: so `none` and `some VNone` take the
same error branch. -/
def avaliarCondicaoSimples (reMatch : Texto → Texto → Except Unit Bool)
    (campo operador : Option Texto) (valor : Option Value)
    (dados contexto : Dados) : Except RegraErr Bool :=
  if optFalsy campo || optFalsy operador then .error .invalida
  else
    match campo, operador with
    | some cp, some op =>
      if !(operadoresComparacao.contains op) then .error .invalida
      else if op = "is_empty".toList || op = "is_not_empty".toList then
        (aplicarOperador reMatch op (obterValorCampo cp dados contexto) VNone).mapError
          (fun _ => .invalida)
      else
        match valor with
        | none => .error .invalida
        | some vEsp =>
            if vEsp = VNone then .error .invalida
            else
              (aplicarOperador reMatch op (obterValorCampo cp dados contexto)
                vEsp).mapError (fun _ => .invalida)
    | _, _ => .error .invalida

/-- The logical lambdas of `self.operadores_logicos`, applied to the list of
child results (`not` negates the first result, `False` on an empty list). -/
def aplicarOperadorLogico (tipo : Texto) (rs : List Bool) : Bool :=
  if tipo = "and".toList then rs.all id
  else if tipo = "or".toList then rs.any id
  else
    match rs with
    | [] => false
    | b :: _ => !b

mutual

/-- `avaliar_condicao`: empty dictionary ⇒ `True`; a `tipo` key naming a
logical operator dispatches to the composite evaluator, anything else to the
leaf evaluator. -/
def avaliarCondicao (reMatch : Texto → Texto → Except Unit Bool)
    (c : Condicao) (dados contexto : Dados) : Except RegraErr Bool :=
  if c.vazia then .ok true
  else
    match c with
    | .mk tipo condicoes campo operador valor =>
        match tipo with
        | some t =>
            if operadoresLogicos.contains t then
              avaliarCondicaoComposta reMatch t condicoes dados contexto
            else avaliarCondicaoSimples reMatch campo operador valor dados contexto
        | none => avaliarCondicaoSimples reMatch campo operador valor dados contexto

/-- `_avaliar_condicao_composta`: an empty child list short-circuits
(`not`/`and` ⇒ `True`, `or` ⇒ `False`); otherwise every child is evaluated
(errors propagate) and the logical operator is applied to the results. -/
def avaliarCondicaoComposta (reMatch : Texto → Texto → Except Unit Bool)
    (tipo : Texto) (condicoes : List Condicao) (dados contexto : Dados) :
    Except RegraErr Bool :=
  if !(operadoresLogicos.contains tipo) then .error .invalida
  else if condicoes.isEmpty then
    if tipo = "not".toList then .ok true
    else if tipo = "and".toList then .ok true
    else .ok false
  else
    match avaliarListaCondicoes reMatch condicoes dados contexto with
    | .error e => .error e
    | .ok rs => .ok (aplicarOperadorLogico tipo rs)

/-- The evaluation loop over the children of a composite condition. -/
def avaliarListaCondicoes (reMatch : Texto → Texto → Except Unit Bool)
    (cs : List Condicao) (dados contexto : Dados) : Except RegraErr (List Bool) :=
  match cs with
  | [] => .ok []
  | c :: rest =>
      match avaliarCondicao reMatch c dados contexto with
      | .error e => .error e
      | .ok r =>
          match avaliarListaCondicoes reMatch rest dados contexto with
          | .error e => .error e
          | .ok rs => .ok (r :: rs)

end

/-- A section definition: the `regra_ativacao` key, when present. -/
structure Definicao where
  regra : Option Condicao

/-- `avaliar_secoes_ativas`: a section without an activation rule is always
active; an evaluation error (caught broadly) leaves the section inactive;
the function itself always returns normally. -/
def avaliarSecoesAtivas (reMatch : Texto → Texto → Except Unit Bool)
    (defs : List (Texto × Definicao)) (dados : Dados) : List Texto :=
  match defs with
  | [] => []
  | (sid, d) :: rest =>
      match d.regra with
      | none => sid :: avaliarSecoesAtivas reMatch rest dados
      | some r =>
          match avaliarCondicao reMatch r dados [] with
          | .ok true => sid :: avaliarSecoesAtivas reMatch rest dados
          | .ok false => avaliarSecoesAtivas reMatch rest dados
          | .error _ => avaliarSecoesAtivas reMatch rest dados

/-! ## `src/avaliador_condicoes.py` — the textual condition evaluator -/

/-- `re.search(r'\bWORD\b', s)`: the word occurs with non-word characters
(or the string ends) on both sides.  `prevWord` records whether the
character before the current position is a word character. -/
def palavraEm (prevWord : Bool) (s w : List Char) : Bool :=
  ((!prevWord) && w.isPrefixOf s &&
    (match s.drop w.length with
     | [] => true
     | c :: _ => !ehCaractereDePalavra c)) ||
  (match s with
   | [] => false
   | c :: rest => palavraEm (ehCaractereDePalavra c) rest w)

/-- Backtracking tail of `\b__\w+__\b` after the opening `__`: some nonempty
run of word characters, then `__`, then a boundary.  `consumiu` records
whether at least one word character has been consumed. -/
def dunderCauda (l : List Char) (consumiu : Bool) : Bool :=
  match l with
  | [] => false
  | c :: rest =>
      (consumiu && c = '_' &&
        (match rest with
         | '_' :: rest2 =>
             (match rest2 with
              | [] => true
              | d :: _ => !ehCaractereDePalavra d)
         | _ => false)) ||
      (ehCaractereDePalavra c && dunderCauda rest true)

/-- `re.search(r'\b__\w+__\b', s)`. -/
def dunderEm (prevWord : Bool) (s : List Char) : Bool :=
  ((!prevWord) &&
    (match s with
     | '_' :: '_' :: rest => dunderCauda rest false
     | _ => false)) ||
  (match s with
   | [] => false
   | c :: rest => dunderEm (ehCaractereDePalavra c) rest)

/-- The deny-listed word tokens of `self._danger_patterns` (all the patterns
except `\b__\w+__\b`, which `dunderEm` covers). -/
def palavrasPerigosas : List Texto :=
  ["import", "exec", "eval", "compile", "globals", "locals", "getattr",
   "setattr", "delattr", "open", "file", "system", "os", "sys"].map String.toList

/-- `verificar_seguranca`: lowercase the expression, reject it when any
danger pattern occurs; `true` means safe. -/
def verificarSeguranca (expressao : Texto) : Bool :=
  let l := pyLower expressao
  !(palavrasPerigosas.any (fun w => palavraEm false l w) || dunderEm false l)

/-- Python `int()` on a stripped literal: optional sign and digits. -/
def pyParseInt (t : Texto) : Option Int :=
  match t with
  | '+' :: ds => if pyIsDigitTexto ds then some (digitosValor ds : Int) else none
  | '-' :: ds => if pyIsDigitTexto ds then some (-(digitosValor ds : Int)) else none
  | ds => if pyIsDigitTexto ds then some (digitosValor ds : Int) else none

/-- The fixed affirmative set of `_converter_valor`. -/
def conjuntoAfirmativo : List Texto :=
  ["sim", "yes", "true", "1", "s", "y", "t"].map String.toList

/-- The fixed negative set of `_converter_valor`. -/
def conjuntoNegativo : List Texto :=
  ["não", "nao", "no", "false", "0", "n", "f"].map String.toList

/-- `_converter_valor`: trim a string operand, map the affirmative/negative
vocabularies to booleans, then try a numeric parse, otherwise keep the
trimmed string; non-strings pass through. -/
def converterValor (valor : Value) : Value :=
  match valor with
  | .prim (.vstr s) =>
      let nrm := pyStrip s
      if conjuntoAfirmativo.contains (pyLower nrm) then VBool true
      else if conjuntoNegativo.contains (pyLower nrm) then VBool false
      else if nrm.contains '.' then
        match pyParseFloat nrm with
        | some q => VFloat q
        | none => VStrT nrm
      else
        match pyParseInt nrm with
        | some n => VInt n
        | none => VStrT nrm
  | v => v

/-- Everything up to the first `)` (with `.` not crossing a newline), and
the rest: the lazy group of `(AND|OR)\((.*?)\)`. -/
def primeiroParen : Texto → Option (Texto × Texto)
  | [] => none
  | c :: rest =>
      if c = ')' then some ([], rest)
      else if c = '\n' then none
      else (primeiroParen rest).map (fun pr => (c :: pr.1, pr.2))

/-- After a case-insensitive `AND` prefix: an opening parenthesis and the
lazy group. -/
def parseAposAnd : Texto → Option (Bool × Texto)
  | c4 :: resto2 =>
      if c4 = '(' then (primeiroParen resto2).map (fun pr => (true, pr.1))
      else none
  | [] => none

/-- Core of the `(AND|OR)\(` prefix test, on the first three characters and
the remainder. -/
def parseLogicoNucleo (c1 c2 c3 : Char) (resto : Texto) : Option (Bool × Texto) :=
  if c1.toLower = 'a' ∧ c2.toLower = 'n' ∧ c3.toLower = 'd' then
    parseAposAnd resto
  else if c1.toLower = 'o' ∧ c2.toLower = 'r' ∧ c3 = '(' then
    (primeiroParen resto).map (fun pr => (false, pr.1))
  else none

/-- `self._pattern_operador_logico.match(expressao)`: a case-insensitive
`AND(` or `OR(` prefix and the group up to the first `)`. -/
def parseLogico (t : Texto) : Option (Bool × Texto) :=
  match t with
  | c1 :: c2 :: c3 :: resto => parseLogicoNucleo c1 c2 c3 resto
  | _ => none

/-- Python `str.split(',')`. -/
def splitVirgula : Texto → List Texto
  | [] => [[]]
  | c :: rest =>
      if c = ',' then [] :: splitVirgula rest
      else
        match splitVirgula rest with
        | h :: t => (c :: h) :: t
        | [] => [[c]]

/-- `self._pattern_comparacao.match(expressao)`:
`(\w+)\s*([=!<>]=?)\s*([\'"]?)(\w+)\3` anchored at the start; returns
`(campo, operador, valor)`. -/
def parseComparacao (t : Texto) : Option (Texto × Texto × Texto) :=
  let (campo, r1) := t.span ehCaractereDePalavra
  if campo.isEmpty then none
  else
    match r1.dropWhile pyIsSpace with
    | c1 :: r3 =>
        if c1 = '=' ∨ c1 = '!' ∨ c1 = '<' ∨ c1 = '>' then
          let (op, r4) :=
            match r3 with
            | '=' :: r4' => ([c1, '='], r4')
            | _ => ([c1], r3)
          let r5 := r4.dropWhile pyIsSpace
          match r5 with
          | q :: r6 =>
              if q = '\'' ∨ q = '"' then
                let (vl, r7) := r6.span ehCaractereDePalavra
                if vl.isEmpty then none
                else
                  match r7 with
                  | q2 :: _ => if q2 = q then some (campo, op, vl) else none
                  | [] => none
              else
                let (vl, _) := r5.span ehCaractereDePalavra
                if vl.isEmpty then none else some (campo, op, vl)
          | [] => none
        else none
    | [] => none

/-- The comparison subset of `OPERADORES_SEGUROS` (the arithmetic keys are
unreachable through the comparison regex). -/
def operadoresSegurosComparacao : List Texto :=
  ["==", "!=", "<", "<=", ">", ">="].map String.toList

/-- Application of an `OPERADORES_SEGUROS` comparison. -/
def aplicarOpSeguro (op : Texto) (a b : Value) : Except Unit Bool :=
  if op = "==".toList then .ok (pyEqVal a b)
  else if op = "!=".toList then .ok (!pyEqVal a b)
  else if op = "<".toList then pyLtVal a b
  else if op = "<=".toList then pyLeVal a b
  else if op = ">".toList then pyLtVal b a
  else if op = ">=".toList then pyLeVal b a
  else .error ()

/-- Errors of `AvaliadorCondicoes.avaliar`: the security rejection
(`ValueError` for an unsafe expression) or a propagated evaluation error. -/
inductive AvaliacaoErr where
  | insegura
  | falha
  deriving DecidableEq

theorem primeiroParen_length {l inner after : Texto}
    (h : primeiroParen l = some (inner, after)) : inner.length < l.length := by
  induction l generalizing inner after with
  | nil => simp [primeiroParen] at h
  | cons c rest ih =>
      unfold primeiroParen at h
      split at h
      · rw [Option.some.injEq, Prod.mk.injEq] at h
        rw [← h.1]
        simp
      · split at h
        · simp at h
        · simp only [Option.map_eq_some'] at h
          obtain ⟨pr, hpr, heq⟩ := h
          have hr := @ih pr.1 pr.2 (by rw [hpr])
          rw [Prod.mk.injEq] at heq
          rw [← heq.1]
          simp only [List.length_cons]
          omega

theorem parseLogicoNucleo_length {c1 c2 c3 : Char} {resto inner : Texto} {b : Bool}
    (h : parseLogicoNucleo c1 c2 c3 resto = some (b, inner)) :
    inner.length + 1 ≤ resto.length := by
  unfold parseLogicoNucleo at h
  split at h
  · cases resto with
    | nil => exact absurd h (by simp [parseAposAnd])
    | cons c4 resto2 =>
        have he : parseAposAnd (c4 :: resto2) =
            if c4 = '(' then (primeiroParen resto2).map (fun pr => (true, pr.1))
            else none := rfl
        rw [he] at h
        split at h
        · simp only [Option.map_eq_some'] at h
          obtain ⟨pr, hpr, heq⟩ := h
          have hlt := @primeiroParen_length resto2 pr.1 pr.2 (by rw [hpr])
          rw [Prod.mk.injEq] at heq
          rw [← heq.2]
          simp only [List.length_cons]
          omega
        · exact absurd h (by simp)
  · split at h
    · simp only [Option.map_eq_some'] at h
      obtain ⟨pr, hpr, heq⟩ := h
      have hlt := @primeiroParen_length resto pr.1 pr.2 (by rw [hpr])
      rw [Prod.mk.injEq] at heq
      rw [← heq.2]
      omega
    · exact absurd h (by simp)

theorem parseLogico_length {t inner : Texto} {b : Bool}
    (h : parseLogico t = some (b, inner)) : inner.length + 4 ≤ t.length := by
  match t with
  | [] => exact absurd h (by simp [parseLogico])
  | [c1] => exact absurd h (by simp [parseLogico])
  | [c1, c2] => exact absurd h (by simp [parseLogico])
  | c1 :: c2 :: c3 :: resto =>
      have h' : parseLogicoNucleo c1 c2 c3 resto = some (b, inner) := h
      have := parseLogicoNucleo_length h'
      simp only [List.length_cons]
      omega

theorem splitVirgula_mem_length {t p : Texto} (h : p ∈ splitVirgula t) :
    p.length ≤ t.length := by
  induction t generalizing p with
  | nil =>
      simp only [splitVirgula, List.mem_singleton] at h
      simp [h]
  | cons c rest ih =>
      unfold splitVirgula at h
      split at h
      · rcases List.mem_cons.1 h with h' | h'
        · simp [h']
        · have := ih h'; simp; omega
      · split at h
        · rename_i hd tl hr
          rcases List.mem_cons.1 h with h' | h'
          · subst h'
            have hm : hd ∈ splitVirgula rest := by rw [hr]; exact List.mem_cons_self _ _
            have := ih hm
            simp; omega
          · have hm : p ∈ splitVirgula rest := by rw [hr]; exact List.mem_cons_of_mem _ h'
            have := ih hm
            simp; omega
        · rcases List.mem_singleton.1 h with h'
          simp [h']

theorem length_dropWhile_le (p : Char → Bool) (l : Texto) :
    (l.dropWhile p).length ≤ l.length := by
  induction l with
  | nil => simp
  | cons c rest ih =>
      rw [List.dropWhile_cons]
      split
      · simp; omega
      · simp

theorem pyStrip_length_le (t : Texto) : (pyStrip t).length ≤ t.length := by
  unfold pyStrip
  calc (((t.dropWhile pyIsSpace).reverse.dropWhile pyIsSpace).reverse).length
      = ((t.dropWhile pyIsSpace).reverse.dropWhile pyIsSpace).length := by
        simp
    _ ≤ (t.dropWhile pyIsSpace).reverse.length := length_dropWhile_le _ _
    _ = (t.dropWhile pyIsSpace).length := by simp
    _ ≤ t.length := length_dropWhile_le _ _

mutual

/-- `AvaliadorCondicoes.avaliar`: empty expression ⇒ `True`; then the
safety filter (raising `ValueError` on rejection and evaluating nothing);
then the literal `True`/`False` forms, the `AND(…)/OR(…)` form (each
sub-condition evaluated recursively, truthiness combined), the single
comparison form (missing field or disallowed operator ⇒ `False`, the
comparison applied to coerced operands), and finally the restricted
`eval` fallback, abstracted by the parameter `pyEval`. -/
def avaliar (pyEval : Texto → Dados → Except Unit Value)
    (expressao : Texto) (dados : Dados) : Except AvaliacaoErr Value :=
  if expressao.isEmpty then .ok (VBool true)
  else if !verificarSeguranca expressao then .error .insegura
  else if pyStrip expressao = "True".toList then .ok (VBool true)
  else if pyStrip expressao = "False".toList then .ok (VBool false)
  else
    match hl : parseLogico expressao with
    | some (ehAnd, inner) =>
        let partes := (splitVirgula inner).map pyStrip
        match avaliarPartes pyEval expressao.length partes
            (by
              intro p hp
              obtain ⟨p0, hp0, rfl⟩ := List.mem_map.1 hp
              have h1 := splitVirgula_mem_length hp0
              have h2 := pyStrip_length_le p0
              have h3 := parseLogico_length hl
              omega)
            dados with
        | .error e => .error e
        | .ok vs =>
            .ok (VBool (if ehAnd then vs.all pyTruthy else vs.any pyTruthy))
    | none =>
        match parseComparacao expressao with
        | some (campo, op, valorTxt) =>
            match lookupDados dados campo with
            | none => .ok (VBool false)
            | some valorCampo =>
                if operadoresSegurosComparacao.contains op then
                  ((aplicarOpSeguro op (converterValor valorCampo)
                      (converterValor (VStrT valorTxt))).map VBool).mapError
                    (fun _ => .falha)
                else .ok (VBool false)
        | none => (pyEval expressao dados).mapError (fun _ => .falha)
termination_by (expressao.length, 1, 0)
decreasing_by
  simp_wf
  apply Prod.Lex.right
  exact Prod.Lex.left _ _ (by omega)

/-- The loop over the split sub-conditions of `AND(…)/OR(…)`; each one is
at most as long as the inner group, hence strictly shorter than the whole
expression. -/
def avaliarPartes (pyEval : Texto → Dados → Except Unit Value)
    (limite : Nat) (partes : List Texto)
    (h : ∀ p ∈ partes, p.length < limite) (dados : Dados) :
    Except AvaliacaoErr (List Value) :=
  match partes with
  | [] => .ok []
  | p :: rest =>
      match avaliar pyEval p dados with
      | .error e => .error e
      | .ok v =>
          match avaliarPartes pyEval limite rest
              (fun q hq => h q (List.mem_cons_of_mem _ hq)) dados with
          | .error e => .error e
          | .ok vs => .ok (v :: vs)
termination_by (limite, 0, partes.length)
decreasing_by
  · simp_wf
    exact Prod.Lex.left _ _ (h p (List.mem_cons_self _ _))
  · simp_wf
    apply Prod.Lex.right
    apply Prod.Lex.right
    omega

end

/-! ## `src/documento_processor.py` — the document processor

Field metadata (`obter_campo_por_nome`, backed by the relational CSV tables,
which are data files outside the sources) is a provider parameter
`meta : Texto → Option CampoInfo`; `fmtMon` abstracts the locale-backed
`_formatar_valor_monetario`. -/

/-- The keys of a field-metadata record read by the processor; `none` models
an absent key. -/
structure CampoInfo where
  tipo_formatacao : Option Texto
  tipo_dado_programacao : Option Texto
  obrigatorio_quando_ativo : Option Bool
  categoria : Option Texto
  deriving DecidableEq

/-- A metadata record with every key absent. -/
def CampoInfo.semChaves : CampoInfo :=
  CampoInfo.mk none none none none

/-- `obrigatorio = campo_info['obrigatorio_quando_ativo']` when the record
and the key exist, `False` otherwise. -/
def obrigatorioDe (info : Option CampoInfo) : Bool :=
  match info with
  | some ci =>
      match ci.obrigatorio_quando_ativo with
      | some b => b
      | none => false
  | none => false

/-- The statistics sets maintained by `DocumentoProcessor` during one run. -/
structure EstadoCampos where
  campos_encontrados : Finset Texto
  campos_substituidos : Finset Texto
  campos_ausentes : Finset Texto
  campos_obrigatorios_ausentes : Finset Texto
  deriving DecidableEq

/-- The empty statistics state set up at the start of `processar_documento`. -/
def EstadoCampos.inicial : EstadoCampos :=
  EstadoCampos.mk ∅ ∅ ∅ ∅

/-- The obligatory-field marker `**[CAMPO OBRIGATÓRIO: nome]**`. -/
def marcadorObrigatorio (nome : Texto) : Texto :=
  "**[CAMPO OBRIGATÓRIO: ".toList ++ nome ++ "]**".toList

/-- `str(valor) if valor is not None else ""`. -/
def strOuVazio (v : Value) : Texto :=
  match v with
  | .prim .vnone => []
  | v => pyStr v

/-- `isinstance(valor, (int, float))` (`bool` is a subtype of `int`). -/
def ehNumerico (v : Value) : Bool :=
  match v with
  | .prim (.vint _) => true
  | .prim (.vbool _) => true
  | .prim (.vfloat _) => true
  | _ => false

def unidadesExtenso : List Texto :=
  ["", "um", "dois", "três", "quatro", "cinco", "seis", "sete", "oito",
   "nove"].map String.toList

def dezenasExtenso : List Texto :=
  ["", "dez", "vinte", "trinta", "quarenta", "cinquenta", "sessenta",
   "setenta", "oitenta", "noventa"].map String.toList

def centenasExtenso : List Texto :=
  ["", "cem", "duzentos", "trezentos", "quatrocentos", "quinhentos",
   "seiscentos", "setecentos", "oitocentos", "novecentos"].map String.toList

def especiaisExtenso : List Texto :=
  ["onze", "doze", "treze", "quatorze", "quinze", "dezesseis", "dezessete",
   "dezoito", "dezenove"].map String.toList

/-- `processar_grupo` of `_valor_por_extenso`: cardinal words for a number
up to 999 (larger inputs raise `IndexError` in Python and are outside the
scope of the verified claims). -/
def processarGrupo (num : Nat) : Texto :=
  if num = 0 then []
  else if num ≤ 9 then unidadesExtenso.getD num []
  else if 11 ≤ num ∧ num ≤ 19 then especiaisExtenso.getD (num - 11) []
  else if num < 100 then
    let dezena := dezenasExtenso.getD (num / 10) []
    let unidade := unidadesExtenso.getD (num % 10) []
    if !unidade.isEmpty then dezena ++ " e ".toList ++ unidade else dezena
  else if num = 100 then "cem".toList
  else
    let centena := centenasExtenso.getD (num / 100) []
    let resto := num % 100
    if resto = 0 then centena
    else centena ++ " e ".toList ++ processarGrupo resto
termination_by num
decreasing_by
  have hm : num % 100 < 100 := Nat.mod_lt _ (by omega)
  omega

/-- `_valor_por_extenso` on a numeric value (non-negative; Python's
banker's rounding of the cent part is modelled by ordinary rounding, and
negative inputs, which hit Python negative indexing, are out of scope). -/
def valorPorExtenso (valor : Value) : Texto :=
  let q : ℚ :=
    match valor with
    | .prim (.vint n) => (n : ℚ)
    | .prim (.vbool b) => if b then 1 else 0
    | .prim (.vfloat x) => x
    | _ => 0
  let parteInteira : Nat := q.floor.toNat
  let parteDecimal : Nat := (round ((q - (parteInteira : ℚ)) * 100)).toNat
  let textoReais :=
    if parteInteira = 0 then "zero".toList else processarGrupo parteInteira
  let textoCentavos :=
    if parteDecimal = 0 then "zero".toList else processarGrupo parteDecimal
  let tr := textoReais ++ (if parteInteira = 1 then " real" else " reais").toList
  let tc := textoCentavos ++ (if parteDecimal = 1 then " centavo" else " centavos").toList
  tr ++ " e ".toList ++ tc

/-- Monetary-format indicators checked against `tipo_formatacao.lower()` in
`_substituir_campos`. -/
def indicadoresMoedaFormatacao : List Texto :=
  ["#.##0,00", "dinheiro", "monetário", "moeda", "r$"].map String.toList

/-- Monetary indicators checked against `tipo_dado_programacao.lower()` in
`_substituir_campos`. -/
def indicadoresMoedaTipo : List Texto :=
  ["dinheiro", "moeda", "valor", "salario", "monetário"].map String.toList

/-- The monetary-sounding field-name vocabulary of `_substituir_campos`. -/
def nomesMonetariosTexto : List Texto :=
  ["valor", "salario", "remuneracao", "vencimento", "subsidio", "proventos",
   "montante", "importancia", "quantia", "bruto", "liquido",
   "total"].map String.toList

/-- The (shorter) monetary-sounding vocabulary of
`_processar_runs_fragmentados`. -/
def nomesMonetariosFrag : List Texto :=
  ["valor", "salario", "remuneracao", "vencimento", "subsidio",
   "proventos"].map String.toList

/-- Monetary detection of `_substituir_campos` (lines 836–857): explicit
format hint, then data-type hint (only when the first failed), then the
field-name vocabulary.  Returns the flag and `tipo_formatacao`. -/
def detectarMonetarioTexto (campoInfo : Option CampoInfo) (nome : Texto) :
    Bool × Option Texto :=
  let tf : Option Texto :=
    match campoInfo with
    | some ci => ci.tipo_formatacao
    | none => none
  let mon1 : Bool :=
    match tf with
    | some t =>
        !t.isEmpty && indicadoresMoedaFormatacao.any
          (fun ind => containsTexto (pyLower t) ind)
    | none => false
  let mon2 : Bool :=
    if mon1 then true
    else
      match campoInfo with
      | some ci =>
          match ci.tipo_dado_programacao with
          | some td =>
              indicadoresMoedaTipo.any (fun ind => containsTexto (pyLower td) ind)
          | none => false
      | none => false
  let mon3 : Bool :=
    if mon2 then true
    else nomesMonetariosTexto.any (fun t => containsTexto (pyLower nome) t)
  (mon3, tf)

/-- Monetary detection of `_processar_runs_fragmentados` (lines 695–714):
the `#.##0,00` indicator is matched against the raw format hint, the other
two against its lowering; the data-type hint is always or-ed in. -/
def detectarMonetarioFrag (campoInfo : Option CampoInfo) (nome : Texto) :
    Bool × Option Texto :=
  let tf : Option Texto :=
    match campoInfo with
    | some ci => ci.tipo_formatacao
    | none => none
  let mon1 : Bool :=
    match tf with
    | some t =>
        !t.isEmpty &&
          (containsTexto t "#.##0,00".toList ||
           containsTexto (pyLower t) "dinheiro".toList ||
           containsTexto (pyLower t) "monetário".toList)
    | none => false
  let mon2 : Bool :=
    mon1 ||
      (match campoInfo with
       | some ci =>
           match ci.tipo_dado_programacao with
           | some td =>
               containsTexto (pyLower td) "dinheiro".toList ||
               containsTexto (pyLower td) "moeda".toList ||
               containsTexto (pyLower td) "valor".toList ||
               containsTexto (pyLower td) "salario".toList
           | none => false
       | none => false)
  let mon3 : Bool :=
    if mon2 then true
    else nomesMonetariosFrag.any (fun t => containsTexto (pyLower nome) t)
  (mon3, tf)

/-- The replacement string computed for a present field by
`_processar_runs_fragmentados` (lines 687–726). -/
def valorFormatadoFrag (fmtMon : Value → Option Texto → Texto)
    (campoInfo : Option CampoInfo) (nome : Texto) (valor : Value) : Texto :=
  let mtf := detectarMonetarioFrag campoInfo nome
  if mtf.1 && ehNumerico valor then fmtMon valor mtf.2
  else
    match campoInfo with
    | some ci =>
        match ci.tipo_dado_programacao with
        | some td =>
            if containsTexto (pyLower td) "extenso".toList && ehNumerico valor then
              valorPorExtenso valor
            else strOuVazio valor
        | none => strOuVazio valor
    | none => strOuVazio valor

/-- The replacement string computed for a present field by
`_substituir_campos` (lines 829–874). -/
def valorFormatadoTexto (fmtMon : Value → Option Texto → Texto)
    (campoInfo : Option CampoInfo) (nome : Texto) (valor : Value) : Texto :=
  let mtf := detectarMonetarioTexto campoInfo nome
  if mtf.1 && ehNumerico valor then fmtMon valor mtf.2
  else
    match campoInfo with
    | some ci =>
        match ci.tipo_dado_programacao with
        | some td =>
            if containsTexto (pyLower td) "extenso".toList && ehNumerico valor then
              valorPorExtenso valor
            else strOuVazio valor
        | none => strOuVazio valor
    | none => strOuVazio valor

/-- The `substituir` callback of `_substituir_campos`: section markers are
returned untouched; a present field is marked substituted and formatted; a
missing field is marked missing and replaced by the obligatory marker when
its metadata declares it required, by the empty string otherwise. -/
def substituirCallback (fmtMon : Value → Option Texto → Texto)
    (meta : Texto → Option CampoInfo) (dados : Dados) (st : EstadoCampos)
    (nomeCampo matchedText : Texto) : Texto × EstadoCampos :=
  if ehMarcadorSecao nomeCampo then (matchedText, st)
  else
    let campoInfo := meta nomeCampo
    match lookupDados dados nomeCampo with
    | some valor =>
        let st' := { st with
          campos_substituidos := insert nomeCampo st.campos_substituidos }
        (valorFormatadoTexto fmtMon campoInfo nomeCampo valor, st')
    | none =>
        let st' := { st with
          campos_ausentes := insert nomeCampo st.campos_ausentes }
        if obrigatorioDe campoInfo then
          let st'' := { st' with
            campos_obrigatorios_ausentes := insert nomeCampo st'.campos_obrigatorios_ausentes }
          (marcadorObrigatorio nomeCampo, st'')
        else ([], st')

/-- The `re.sub` driver of `_substituir_campos` over the scanned matches:
text outside matches is kept, each match is replaced by the callback
result. -/
def substituirCamposGo (fmtMon : Value → Option Texto → Texto)
    (meta : Texto → Option CampoInfo) (dados : Dados) :
    Texto → Nat → List (Nat × Nat × Texto) → EstadoCampos → Texto × EstadoCampos
  | resto, _, [], st => (resto, st)
  | resto, pos, (ini, fim, interior) :: ms, st =>
      let pre := resto.take (ini - pos)
      let matched := '{' :: '{' :: (interior ++ '}' :: '}' :: [])
      let nome := pyStrip interior
      let rs := substituirCallback fmtMon meta dados st nome matched
      let cauda := substituirCamposGo fmtMon meta dados (resto.drop (fim - pos)) fim ms rs.2
      (pre ++ rs.1 ++ cauda.1, cauda.2)

/-- `_substituir_campos`. -/
def substituirCampos (fmtMon : Value → Option Texto → Texto)
    (meta : Texto → Option CampoInfo) (dados : Dados) (texto : Texto)
    (st : EstadoCampos) : Texto × EstadoCampos :=
  substituirCamposGo fmtMon meta dados texto 0 (scanPlaceholders texto) st

/-- The run-classification loop of `_processar_runs_fragmentados`
(lines 655–677): which runs of the snapshot hold the start, interior parts
and end of the placeholder at offsets `[ini, fim)`, with the slice bounds
inside each run. -/
def runsAfetadasGo (rs : List Texto) (idx pos ini fim : Nat) :
    List (Nat × Nat × Nat) :=
  match rs with
  | [] => []
  | r :: rest =>
      let nova := pos + r.length
      let aqui :=
        if pos ≤ ini ∧ ini < nova then
          [(idx, ini - pos, min r.length (fim - pos))]
        else if ini < pos ∧ nova < fim then [(idx, 0, r.length)]
        else if pos < fim ∧ fim ≤ nova ∧ ini < pos then [(idx, 0, fim - pos)]
        else []
      aqui ++ runsAfetadasGo rest (idx + 1) nova ini fim

def runsAfetadas (rs : List Texto) (ini fim : Nat) : List (Nat × Nat × Nat) :=
  runsAfetadasGo rs 0 0 ini fim

/-- The substitution application of `_processar_runs_fragmentados`
(lines 729–760 and 783–799): the first affected run keeps its prefix and
receives the replacement, every later affected run is cleared, and then the
last affected run is given its suffix back — reading its (already cleared)
current text, as the source does. -/
def aplicarSubstituicao (current : List Texto)
    (afetadas : List (Nat × Nat × Nat)) (rep : Texto) : List Texto :=
  match afetadas with
  | [] => current
  | (r0, a0, _) :: resto =>
      let c1 := current.set r0 ((current.getD r0 []).take a0 ++ rep)
      let c2 := resto.foldl (fun cur t => cur.set t.1 []) c1
      match resto with
      | [] => c2
      | _ :: _ =>
          let ultima := afetadas.getLastD (r0, a0, 0)
          let lastText := c2.getD ultima.1 []
          if ultima.2.2 < lastText.length then
            c2.set ultima.1 (lastText.drop ultima.2.2)
          else c2.set ultima.1 []

/-- The per-match loop of `_processar_runs_fragmentados`: `runsTexto` is the
snapshot of the run texts taken before any mutation, `current` the live
run texts. -/
def processarRunsFragmentadosGo (fmtMon : Value → Option Texto → Texto)
    (meta : Texto → Option CampoInfo) (dados : Dados) (runsTexto : List Texto) :
    List (Nat × Nat × Texto) → List Texto → EstadoCampos → Bool →
    List Texto × EstadoCampos × Bool
  | [], current, st, proc => (current, st, proc)
  | (ini, fim, interior) :: ms, current, st, proc =>
      let nome := pyStrip interior
      if ehMarcadorSecao nome then
        processarRunsFragmentadosGo fmtMon meta dados runsTexto ms current st proc
      else
        let st1 := { st with
          campos_encontrados := insert nome st.campos_encontrados }
        let afetadas := runsAfetadas runsTexto ini fim
        match lookupDados dados nome with
        | some valor =>
            let st2 := { st1 with
              campos_substituidos := insert nome st1.campos_substituidos }
            let vf := valorFormatadoFrag fmtMon (meta nome) nome valor
            processarRunsFragmentadosGo fmtMon meta dados runsTexto ms
              (aplicarSubstituicao current afetadas vf) st2 true
        | none =>
            let st2 := { st1 with
              campos_ausentes := insert nome st1.campos_ausentes }
            let obrig := obrigatorioDe (meta nome)
            let txt := if obrig then marcadorObrigatorio nome else []
            let st3 :=
              if obrig then
                { st2 with
                  campos_obrigatorios_ausentes := insert nome st2.campos_obrigatorios_ausentes }
              else st2
            processarRunsFragmentadosGo fmtMon meta dados runsTexto ms
              (aplicarSubstituicao current afetadas txt) st3 true

/-- `_processar_runs_fragmentados`: reconstruct the logical text by joining
the run texts, scan it for placeholders, and process each non-marker match
against the snapshot offsets.  Returns the updated run texts, the updated
statistics state and the `processou_algum` flag. -/
def processarRunsFragmentados (fmtMon : Value → Option Texto → Texto)
    (meta : Texto → Option CampoInfo) (dados : Dados) (runs : List Texto)
    (st : EstadoCampos) : List Texto × EstadoCampos × Bool :=
  let textoCompleto := runs.flatten
  processarRunsFragmentadosGo fmtMon meta dados runs
    (scanPlaceholders textoCompleto) runs st false

/-- A run/fragment: a text span with its (opaque) formatting attributes —
the ones the processor reads are bold and italic. -/
structure Frag where
  text : Texto
  negrito : Bool
  italico : Bool
  deriving DecidableEq

/-- A structural text unit (paragraph), with its style name. -/
structure Paragrafo where
  runs : List Frag
  estilo : Texto
  deriving DecidableEq

instance : Inhabited Paragrafo := ⟨⟨[], []⟩⟩

/-- `paragrafo.text`: the concatenation of the run texts. -/
def textoParagrafo (p : Paragrafo) : Texto :=
  (p.runs.map Frag.text).flatten

/-- `re.match(r'^{{[\s]*[#/].*}}$', texto)` on the stripped paragraph text:
`{{`, whitespace, a marker sigil, anything not crossing a newline, and a
final `}}`. -/
def ehMarcadorSolto (t : Texto) : Bool :=
  match t with
  | '{' :: '{' :: resto =>
      (match resto.dropWhile pyIsSpace with
       | c :: m =>
           (c = '#' || c = '/') && decide (2 ≤ m.length) &&
           m.drop (m.length - 2) = ['}', '}'] &&
           (m.take (m.length - 2)).all (fun ch => ch ≠ '\n')
       | [] => false)
  | _ => false

/-- The empty-paragraph test of `_limpar_documento_apos_processamento`
(lines 282–292): stripped text empty, at least one run, and every run's
stripped text empty. -/
def paragrafoVazio (p : Paragrafo) : Bool :=
  (pyStrip (textoParagrafo p)).isEmpty && !p.runs.isEmpty &&
    p.runs.all (fun r => (pyStrip r.text).isEmpty)

/-- The removal test of the cleanup pass: a marker-only paragraph or an
all-empty paragraph. -/
def deveRemover (p : Paragrafo) : Bool :=
  ehMarcadorSolto (pyStrip (textoParagrafo p)) || paragrafoVazio p

/-- `_limpar_documento_apos_processamento`: collect and remove every
marker-only and every all-empty paragraph. -/
def limparDocumentoAposProcessamento (doc : List Paragrafo) : List Paragrafo :=
  doc.filter (fun p => !(deveRemover p))

/-- A mapped section: the indices of its contained units, and the
incomplete flag set for a start marker never closed. -/
structure SecaoInfo where
  elementos : List Nat
  incompleta : Bool
  deriving DecidableEq

/-- Python dict assignment on an association list: an existing key keeps its
position and gets the new value, a new key is appended. -/
def atualizarAssoc {α : Type} (l : List (Texto × α)) (k : Texto) (v : α) :
    List (Texto × α) :=
  match l with
  | [] => [(k, v)]
  | (k', v') :: rest =>
      if k' = k then (k, v) :: rest else (k', v') :: atualizarAssoc rest k v

/-- Python dict lookup on an association list. -/
def procurarAssoc {α : Type} (l : List (Texto × α)) (k : Texto) : Option α :=
  match l with
  | [] => none
  | (k', v) :: rest => if k' = k then some v else procurarAssoc rest k

/-- Python `del d[k]` on an association list. -/
def removerAssoc {α : Type} (l : List (Texto × α)) (k : Texto) :
    List (Texto × α) :=
  l.filter (fun e => e.1 ≠ k)

/-- One paragraph step of `_mapear_secoes_no_documento`: all start markers
of the paragraph open (or re-open) sections, then all end markers close the
matching open section, collecting the units from its start index to the
current index (an end marker with no open start is flagged and skipped). -/
def mapearPasso (i : Nat) (texto : Texto)
    (estado : List (Texto × Nat) × List (Texto × SecaoInfo)) :
    List (Texto × Nat) × List (Texto × SecaoInfo) :=
  let ilhas := scanPlaceholders texto
  let inicios := ilhas.filterMap (fun m => marcadorInicioId m.2.2)
  let fins := ilhas.filterMap (fun m => marcadorFimId m.2.2)
  let abertas1 := inicios.foldl (fun ab sid => atualizarAssoc ab sid i) estado.1
  fins.foldl
    (fun est sid =>
      match procurarAssoc est.1 sid with
      | some ini =>
          (removerAssoc est.1 sid,
           atualizarAssoc est.2 sid (SecaoInfo.mk (List.range' ini (i + 1 - ini)) false))
      | none => est)
    (abertas1, estado.2)

/-- The paragraph loop of `_mapear_secoes_no_documento`. -/
def mapearLoop (textos : List Texto) (i : Nat)
    (estado : List (Texto × Nat) × List (Texto × SecaoInfo)) :
    List (Texto × Nat) × List (Texto × SecaoInfo) :=
  match textos with
  | [] => estado
  | t :: rest => mapearLoop rest (i + 1) (mapearPasso i t estado)

/-- `_mapear_secoes_no_documento` without the title fallback: explicit
`{{#id}}`/`{{/id}}` markers; a section left open at end of document is kept,
marked incomplete, with the units through the last one. -/
def mapearMarcadores (doc : List Paragrafo) : List (Texto × SecaoInfo) :=
  let n := doc.length
  let estadoFinal := mapearLoop (doc.map textoParagrafo) 0 ([], [])
  estadoFinal.1.foldl
    (fun mp ab =>
      atualizarAssoc mp ab.1 (SecaoInfo.mk (List.range' ab.2 (n - ab.2)) true))
    estadoFinal.2

/-- Inserting into a list sorted by the `Nat` key, after equal keys
(yielding the stable sort Python `sorted` performs). -/
def inserirEstavel (l : List (Texto × Nat)) (x : Texto × Nat) :
    List (Texto × Nat) :=
  match l with
  | [] => [x]
  | y :: rest => if x.2 < y.2 then x :: y :: rest else y :: inserirEstavel rest x

/-- Stable sort by the `Nat` key. -/
def ordenarPorIdx (l : List (Texto × Nat)) : List (Texto × Nat) :=
  l.foldl inserirEstavel []

/-- Python `str.isupper()` (ASCII behaviour): at least one letter and no
lowercase letter. -/
def pyIsUpperTexto (t : Texto) : Bool :=
  t.any (fun c => c.isAlpha) && !t.any (fun c => c.isLower)

/-- `re.match(r'^\d+[\.\)\-]', texto)`: leading digits then `.`, `)` or
`-`. -/
def comecaComNumeracao (t : Texto) : Bool :=
  let sp := t.span Char.isDigit
  !sp.1.isEmpty &&
    (match sp.2 with
     | c :: _ => c = '.' || c = ')' || c = '-'
     | [] => false)

/-- The hard-coded section table `self.mapeamento_secoes`: conditional
field, activating value and title keywords per section. -/
structure MapSecao where
  campo_condicional : Texto
  valor_ativo : Texto
  palavras_chave : List Texto

def mapeamentoSecoes : List (Texto × MapSecao) :=
  [("HORAS_EXTRAS".toList,
     MapSecao.mk "calcular_horas_extras".toList "Sim".toList
       (["hora extra", "horas extras", "jornada", "sobrejornada"].map String.toList)),
   ("VERBAS_RESCISORIAS".toList,
     MapSecao.mk "motivo_rescisao".toList "demissão sem justa causa".toList
       (["verba rescisória", "verbas rescisórias", "rescisão", "verbas"].map String.toList)),
   ("aviso_previo".toList,
     MapSecao.mk "dias_aviso_previo_base_calculo".toList "30 dias".toList
       (["aviso prévio", "aviso-prévio"].map String.toList)),
   ("acumulo_funcao".toList,
     MapSecao.mk "calcular_acumulo_funcao".toList "Sim".toList
       (["acúmulo de função", "acumulo de funcao", "desvio de função"].map String.toList)),
   ("INSALUBRIDADE".toList,
     MapSecao.mk "calcular_insalubridade".toList "Sim".toList
       (["insalubridade", "ambiente insalubre", "adicional de insalubridade"].map String.toList))]

/-- The format score of a candidate title paragraph
(`_injetar_marcadores_secao`, lines 1169–1207). -/
def pontuacaoFormato (p : Paragrafo) (texto : Texto) : Nat :=
  (if pyIsUpperTexto texto ∧ 3 < texto.length then 3 else 0) +
  (if p.runs.any (fun r => r.negrito) then 3 else 0) +
  (if p.runs.any (fun r => r.italico) then 1 else 0) +
  (if !p.estilo.isEmpty ∧
      (containsTexto (pyLower p.estilo) "heading".toList ∨
       containsTexto (pyLower p.estilo) "título".toList ∨
       containsTexto (pyLower p.estilo) "title".toList) then 5 else 0) +
  (if texto.length < 50 then 1 else 0) +
  (if comecaComNumeracao texto then 2 else 0)

/-- The keyword score of one section against a paragraph (3 points per
matching keyword, lowercased containment). -/
def pontuacaoSecao (texto : Texto) (palavras : List Texto) : Nat :=
  3 * palavras.countP (fun k => containsTexto (pyLower texto) (pyLower k))

/-- The per-paragraph identification step of `_injetar_marcadores_secao`:
for each table section scoring at least 3 on keywords and at least 5
combined, record (or improve) its title index. -/
def injetarPasso (i : Nat) (p : Paragrafo)
    (estado : List (Texto × Nat) × List (Texto × Nat)) :
    List (Texto × Nat) × List (Texto × Nat) :=
  let texto := pyStrip (textoParagrafo p)
  if texto.isEmpty then estado
  else
    let base := pontuacaoFormato p texto
    mapeamentoSecoes.foldl
      (fun est entrada =>
        let ps := pontuacaoSecao texto entrada.2.palavras_chave
        if 3 ≤ ps then
          let final := base + ps
          if 5 ≤ final then
            match procurarAssoc est.2 entrada.1 with
            | some antes =>
                if final ≤ antes then est
                else (atualizarAssoc est.1 entrada.1 i,
                      atualizarAssoc est.2 entrada.1 final)
            | none =>
                (atualizarAssoc est.1 entrada.1 i,
                 atualizarAssoc est.2 entrada.1 final)
          else est
        else est)
      estado

def injetarLoop (doc : List Paragrafo) (i : Nat)
    (estado : List (Texto × Nat) × List (Texto × Nat)) :
    List (Texto × Nat) × List (Texto × Nat) :=
  match doc with
  | [] => estado
  | p :: rest => injetarLoop rest (i + 1) (injetarPasso i p estado)

/-- End index of each identified section: the paragraph before the next
anchor in document order, or the last paragraph. -/
def findeAncoras (ordenadas : List (Texto × Nat)) (n : Nat) :
    List (Texto × Nat) :=
  match ordenadas with
  | [] => []
  | [(sid, _)] => [(sid, n - 1)]
  | (sid, _) :: (s2, i2) :: rest =>
      (sid, i2 - 1) :: findeAncoras ((s2, i2) :: rest) n

/-- `_injetar_marcadores_secao` followed by `_mapear_secoes_por_titulos`:
identify title anchors by scoring, extend each section to the paragraph
before the next anchor (or the end of the document). -/
def mapearSecoesPorTitulos (doc : List Paragrafo) : List (Texto × SecaoInfo) :=
  let n := doc.length
  let ident := (injetarLoop doc 0 ([], [])).1
  if ident.isEmpty then []
  else
    let fins := findeAncoras (ordenarPorIdx ident) n
    ident.map (fun e =>
      let fim := (procurarAssoc fins e.1).getD (n - 1)
      (e.1, SecaoInfo.mk (List.range' e.2 (fim + 1 - e.2)) false))

/-- `_mapear_secoes_no_documento`: explicit markers first; the title
heuristic only when no marker was found. -/
def mapearSecoesNoDocumento (doc : List Paragrafo) : List (Texto × SecaoInfo) :=
  let m := mapearMarcadores doc
  if m.isEmpty then mapearSecoesPorTitulos doc else m

/-- The activating values recognised for `valor_ativo == 'Sim'`. -/
def valoresSim : List Value :=
  [VStr "Sim", VStr "sim", VStr "S", VStr "s", VBool true, VInt 1, VStr "1"]

/-- The values recognised for `valor_ativo == 'Não'`. -/
def valoresNao : List Value :=
  [VStr "Não", VStr "não", VStr "nao", VStr "N", VStr "n", VBool false,
   VInt 0, VStr "0"]

/-- `_determinar_secoes_ativas`: for each hard-coded section whose
conditional field is present, activate it on the `Sim`/`Não` families, a
case-insensitive string match, or the special `dias_aviso_previo` rule. -/
def determinarSecoesAtivas (dados : Dados) : List Texto :=
  mapeamentoSecoes.foldl
    (fun acc entrada =>
      match lookupDados dados entrada.2.campo_condicional with
      | some valorReal =>
          if entrada.2.valor_ativo = "Sim".toList ∧
             valoresSim.any (fun v => pyEqVal valorReal v) then acc ++ [entrada.1]
          else if entrada.2.valor_ativo = "Não".toList ∧
             valoresNao.any (fun v => pyEqVal valorReal v) then acc ++ [entrada.1]
          else if pyLower (pyStr valorReal) = pyLower entrada.2.valor_ativo then
            acc ++ [entrada.1]
          else if containsTexto entrada.2.campo_condicional "dias_aviso_previo".toList ∧
             pyTruthy valorReal ∧ pyStr valorReal ≠ "0".toList then
            acc ++ [entrada.1]
          else acc
      | none => acc)
    []

/-- Clearing one unit during pruning: `elemento.text = ""` — python-docx's
`Paragraph.text` setter deletes every existing run and adds one run holding
the assigned (empty) text, with no direct formatting — followed by the loop
clearing every (now single) run.  The net effect is one empty
default-formatted run; the paragraph style is untouched. -/
def limparParagrafo (p : Paragrafo) : Paragrafo :=
  { p with runs := [Frag.mk [] false false] }

def limparParagrafoIdx (d : List Paragrafo) (j : Nat) : List Paragrafo :=
  d.set j (limparParagrafo (d.getD j default))

/-- The pruning loop of `_processar_secoes_condicionais` (lines 229–251):
every mapped section not in the active set has each of its units' text
content cleared in place. -/
def podarSecoesInativas (doc : List Paragrafo)
    (mapeamento : List (Texto × SecaoInfo)) (ativas : List Texto) :
    List Paragrafo :=
  mapeamento.foldl
    (fun d entrada =>
      if ativas.contains entrada.1 then d
      else entrada.2.elementos.foldl limparParagrafoIdx d)
    doc

/-- `_processar_secoes_condicionais`: an empty active list is replaced by
the automatic determination; if it is still empty, or no section is mapped
in the document, the document is returned untouched (no pruning and no
cleanup); otherwise prune the inactive sections and run the cleanup pass. -/
def processarSecoesCondicionais (ativas : List Texto) (dados : Dados)
    (doc : List Paragrafo) : List Paragrafo :=
  let ativasEf := if ativas.isEmpty then determinarSecoesAtivas dados else ativas
  if ativasEf.isEmpty then doc
  else
    let mapeamento := mapearSecoesNoDocumento doc
    if mapeamento.isEmpty then doc
    else limparDocumentoAposProcessamento (podarSecoesInativas doc mapeamento ativasEf)

/-! ### Statistics -/

/-- A statistics value: a count, the completeness ratio, a formatted string,
or the per-category breakdown. -/
inductive StatVal where
  | nat (n : Nat)
  | rat (q : ℚ)
  | texto (t : Texto)
  | categorias (m : List (Texto × List Texto))
  deriving DecidableEq

/-- Stable insertion sort of field names by code point, as Python
`sorted`. -/
def inserirTexto (l : List Texto) (x : Texto) : List Texto :=
  match l with
  | [] => [x]
  | y :: rest => if textoLt x y then x :: y :: rest else y :: inserirTexto rest x

def ordenarTexto (l : List Texto) : List Texto :=
  l.foldl inserirTexto []

/-- The default categories of `_agrupar_campos_por_categoria`, in insertion
order, with `Outros` appended. -/
def categoriasPadrao : List Texto :=
  ["Informações Processuais", "Partes", "Datas", "Valores", "Cálculos",
   "Pedidos", "Documentos", "Outros"].map String.toList

/-- The prefix table of `_agrupar_campos_por_categoria`. -/
def prefixosCategorias : List (Texto × Texto) :=
  [("proc", "Informações Processuais"), ("autor", "Partes"), ("reu", "Partes"),
   ("reclamante", "Partes"), ("reclamado", "Partes"), ("data", "Datas"),
   ("valor", "Valores"), ("calculo", "Cálculos"), ("pedido", "Pedidos"),
   ("documento", "Documentos")].map (fun e => (e.1.toList, e.2.toList))

/-- Appending a field under a category (creating the category at the end
when new, as dict assignment does). -/
def anexarCategoria (l : List (Texto × List Texto)) (k : Texto) (x : Texto) :
    List (Texto × List Texto) :=
  match l with
  | [] => [(k, [x])]
  | (k', v) :: rest =>
      if k' = k then (k, v ++ [x]) :: rest else (k', v) :: anexarCategoria rest k x

/-- `_agrupar_campos_por_categoria`: metadata category first, then prefix
matching, then `Outros`; empty categories are dropped and each category's
fields are sorted.  Python iterates the field *set* in unspecified hash
order, so the iteration order is taken as a list argument. -/
def agruparCamposPorCategoria (meta : Texto → Option CampoInfo)
    (campos : List Texto) : List (Texto × List Texto) :=
  let inicial := categoriasPadrao.map (fun c => (c, ([] : List Texto)))
  let preenchido :=
    campos.foldl
      (fun acc campo =>
        match meta campo with
        | some ci =>
            match ci.categoria with
            | some cat =>
                if !cat.isEmpty then anexarCategoria acc cat campo
                else
                  match prefixosCategorias.find?
                      (fun pc => pc.1.isPrefixOf (pyLower campo)) with
                  | some pc => anexarCategoria acc pc.2 campo
                  | none => anexarCategoria acc "Outros".toList campo
            | none =>
                match prefixosCategorias.find?
                    (fun pc => pc.1.isPrefixOf (pyLower campo)) with
                | some pc => anexarCategoria acc pc.2 campo
                | none => anexarCategoria acc "Outros".toList campo
        | none =>
            match prefixosCategorias.find?
                (fun pc => pc.1.isPrefixOf (pyLower campo)) with
            | some pc => anexarCategoria acc pc.2 campo
            | none => anexarCategoria acc "Outros".toList campo)
      inicial
  (preenchido.filter (fun e => !e.2.isEmpty)).map (fun e => (e.1, ordenarTexto e.2))

/-- The statistics dictionary built at step 7 of `processar_documento`
(lines 167–175).  The formatted elapsed time is wall-clock dependent and
passed in as `tempoStr`. -/
def estatisticasProcessarDocumento (st : EstadoCampos)
    (secoesEncontradas : Finset Texto) (secoesAtivas : List Texto)
    (tempoStr : Texto) : List (Texto × StatVal) :=
  [("campos_encontrados".toList, StatVal.nat st.campos_encontrados.card),
   ("campos_substituidos".toList, StatVal.nat st.campos_substituidos.card),
   ("campos_ausentes".toList, StatVal.nat st.campos_ausentes.card),
   ("campos_obrigatorios_ausentes".toList,
     StatVal.nat st.campos_obrigatorios_ausentes.card),
   ("secoes_encontradas".toList, StatVal.nat secoesEncontradas.card),
   ("secoes_ativas".toList, StatVal.nat secoesAtivas.length),
   ("tempo_processamento".toList, StatVal.texto tempoStr)]

/-- `_registrar_estatisticas` (lines 997–1039): the completeness percentage
`substituted / discovered × 100` (0 when nothing was discovered), the status
derived from it, the per-category breakdown of the missing fields (whose
set-iteration order is the `camposAusentesOrdem` argument), and the counts. -/
def registrarEstatisticas (meta : Texto → Option CampoInfo) (st : EstadoCampos)
    (camposAusentesOrdem : List Texto) (secoesEncontradas : Finset Texto)
    (secoesAtivas : List Texto) (dados : Dados) : List (Texto × StatVal) :=
  let totalEncontrados := st.campos_encontrados.card
  let totalSubstituidos := st.campos_substituidos.card
  let porcentagem : ℚ :=
    if 0 < totalEncontrados then
      ((totalSubstituidos : ℚ) / (totalEncontrados : ℚ)) * 100
    else 0
  let status : Texto :=
    if st.campos_obrigatorios_ausentes.card = 0 then
      if 95 ≤ porcentagem then "Sucesso".toList
      else if 50 ≤ porcentagem then "Parcial".toList
      else "Erro".toList
    else "Erro".toList
  [("status".toList, StatVal.texto status),
   ("total_campos_encontrados".toList, StatVal.nat totalEncontrados),
   ("total_campos_substituidos".toList, StatVal.nat totalSubstituidos),
   ("total_campos_ausentes".toList, StatVal.nat st.campos_ausentes.card),
   ("total_campos_obrigatorios_ausentes".toList,
     StatVal.nat st.campos_obrigatorios_ausentes.card),
   ("campos_ausentes_por_categoria".toList,
     StatVal.categorias (agruparCamposPorCategoria meta camposAusentesOrdem)),
   ("porcentagem_completude".toList, StatVal.rat porcentagem),
   ("total_campos_dados".toList, StatVal.nat dados.length),
   ("total_secoes_encontradas".toList, StatVal.nat secoesEncontradas.card),
   ("total_secoes_ativas".toList, StatVal.nat secoesAtivas.length)]

instance {ε α : Type} [DecidableEq ε] [DecidableEq α] : DecidableEq (Except ε α) :=
  fun a b =>
    match a, b with
    | .ok x, .ok y => if h : x = y then .isTrue (by rw [h]) else .isFalse (by simp [h])
    | .error x, .error y => if h : x = y then .isTrue (by rw [h]) else .isFalse (by simp [h])
    | .ok _, .error _ => .isFalse (by simp)
    | .error _, .ok _ => .isFalse (by simp)

/-- A field name beginning, after whitespace and an optional sign, with a
digit or a point.  Python's full `float()` grammar (underscore groups,
non-ASCII decimal digits) accepts some such names beyond the embedded ASCII
grammar, so they are excluded wholesale where a name is assumed not to be a
float literal; every accepted numeric spelling starts this way. -/
def comecaNumerico (t : Texto) : Bool :=
  let s :=
    match pyStrip t with
    | '-' :: r => r
    | '+' :: r => r
    | r => r
  match s with
  | c :: _ => c.isDigit || c = '.'
  | [] => false

/-- A condition field that is not one of the literal forms recognised by
`_obter_valor_campo` (including the `inf`/`nan` spellings and any
digit-initial name Python `float()` could accept) and is absent from the
record. -/
def campoAusenteNaoLiteral (campo : Texto) (dados : Dados) : Prop :=
  ehRefEspecial campo = false ∧ entreAspas '"' campo = false ∧
  entreAspas '\'' campo = false ∧ pyIsDigitTexto campo = false ∧
  pyParseFloat campo = none ∧ ehInfNan campo = false ∧
  comecaNumerico campo = false ∧ pyLower campo ≠ "true".toList ∧
  pyLower campo ≠ "false".toList ∧ pyLower campo ≠ "null".toList ∧
  pyLower campo ≠ "none".toList ∧ lookupDados dados campo = none

instance (campo : Texto) (dados : Dados) :
    Decidable (campoAusenteNaoLiteral campo dados) := by
  unfold campoAusenteNaoLiteral
  infer_instance

instance : Inhabited Definicao := ⟨⟨none⟩⟩

/-- A run state with 20 discovered fields of which 18 were substituted and
2 are missing — the spec's own worked example. -/
def estadoC9 : EstadoCampos :=
  { campos_encontrados :=
      (["c01", "c02", "c03", "c04", "c05", "c06", "c07", "c08", "c09", "c10",
        "c11", "c12", "c13", "c14", "c15", "c16", "c17", "c18", "c19",
        "c20"].map String.toList).toFinset,
    campos_substituidos :=
      (["c01", "c02", "c03", "c04", "c05", "c06", "c07", "c08", "c09", "c10",
        "c11", "c12", "c13", "c14", "c15", "c16", "c17",
        "c18"].map String.toList).toFinset,
    campos_ausentes := (["c19", "c20"].map String.toList).toFinset,
    campos_obrigatorios_ausentes := ∅ }

/-- A metadata provider declaring `salario_base` required. -/
def metaC5 : Texto → Option CampoInfo := fun n =>
  if n = "salario_base".toList then some (CampoInfo.mk none none (some true) none)
  else none

/-- Index `j` is inside some mapped section that is not active. -/
def tocadoPor (mapeamento : List (Texto × SecaoInfo)) (ativas : List Texto)
    (j : Nat) : Prop :=
  ∃ e ∈ mapeamento, ativas.contains e.1 = false ∧ j ∈ e.2.elementos

/-- A one-paragraph document holding only a section start marker. -/
def docC7 : List Paragrafo :=
  [Paragrafo.mk [Frag.mk "\x7b\x7b#HORAS_EXTRAS\x7d\x7d".toList false false] []]

/-- A marker-delimited section with a body paragraph. -/
def docC7w : List Paragrafo :=
  [Paragrafo.mk [Frag.mk "\x7b\x7b#HORAS_EXTRAS\x7d\x7d".toList false false] [],
   Paragrafo.mk [Frag.mk "Corpo".toList false false] [],
   Paragrafo.mk [Frag.mk "\x7b\x7b/HORAS_EXTRAS\x7d\x7d".toList false false] []]

def InvC10 (dados : Dados) (st : EstadoCampos) : Prop :=
  (∀ n ∈ st.campos_substituidos, lookupDados dados n ≠ none) ∧
  (∀ n ∈ st.campos_ausentes, lookupDados dados n = none)

def InvFrag (st : EstadoCampos) : Prop :=
  st.campos_substituidos ⊆ st.campos_encontrados ∧
  st.campos_ausentes ⊆ st.campos_encontrados

/-! ## Theorems -/

/-- `None == v` is `False` for every non-`None` value. -/
theorem pyEqVal_vnone_false {v : Value} (hv : v ≠ VNone) :
    pyEqVal VNone v = false := by
  match v with
  | .prim .vnone => exact absurd rfl hv
  | .prim (.vbool b) => rfl
  | .prim (.vint n) => rfl
  | .prim (.vfloat q) => rfl
  | .prim (.vstr s) => rfl
  | .lista l => rfl

/-- `None` is incomparable on the left of `<`. -/
theorem pyLtVal_vnone_left (v : Value) : pyLtVal VNone v = .error () := by
  match v with
  | .prim .vnone => rfl
  | .prim (.vbool b) => rfl
  | .prim (.vint n) => rfl
  | .prim (.vfloat q) => rfl
  | .prim (.vstr s) => rfl
  | .lista l => rfl

/-- `None` is incomparable on the right of `<`. -/
theorem pyLtVal_vnone_right (v : Value) : pyLtVal v VNone = .error () := by
  match v with
  | .prim .vnone => rfl
  | .prim (.vbool b) => rfl
  | .prim (.vint n) => rfl
  | .prim (.vfloat q) => rfl
  | .prim (.vstr s) => rfl
  | .lista l => rfl

/-- `None` is incomparable on the left of `<=`. -/
theorem pyLeVal_vnone_left (v : Value) : pyLeVal VNone v = .error () := by
  match v with
  | .prim .vnone => rfl
  | .prim (.vbool b) => rfl
  | .prim (.vint n) => rfl
  | .prim (.vfloat q) => rfl
  | .prim (.vstr s) => rfl
  | .lista l => rfl

/-- `None` is incomparable on the right of `<=`. -/
theorem pyLeVal_vnone_right (v : Value) : pyLeVal v VNone = .error () := by
  match v with
  | .prim .vnone => rfl
  | .prim (.vbool b) => rfl
  | .prim (.vint n) => rfl
  | .prim (.vfloat q) => rfl
  | .prim (.vstr s) => rfl
  | .lista l => rfl

/-- `_obter_valor_campo` resolves a clean missing field to `None`. -/
theorem obterValorCampo_ausente {campo : Texto} {dados : Dados}
    (h : campoAusenteNaoLiteral campo dados) :
    obterValorCampo campo dados [] = VNone := by
  obtain ⟨h1, h2, h3, h4, h5, h6, h7, h8, h9, h10, h11, h12⟩ := h
  unfold obterValorCampo
  rw [h1, h2, h3, h4, h5, h12]
  simp only [Bool.false_eq_true, if_false, lookupDados]
  rw [if_neg (by simpa using h8), if_neg (by simpa using h9),
    if_neg (by simp; exact ⟨by simpa using h10, by simpa using h11⟩)]

/-- The leaf evaluator on a non-emptiness operator reduces to the operator
application on the resolved field. -/
theorem avaliarCondicaoSimples_reduz (reMatch : Texto → Texto → Except Unit Bool)
    {campo op : Texto} (v : Value) (dados contexto : Dados)
    (hc : campo ≠ []) (hop : operadoresComparacao.contains op = true)
    (hne : op ≠ "is_empty".toList) (hnne : op ≠ "is_not_empty".toList)
    (hvn : v ≠ VNone) :
    avaliarCondicaoSimples reMatch (some campo) (some op) (some v) dados contexto =
      (aplicarOperador reMatch op (obterValorCampo campo dados contexto) v).mapError
        (fun _ => .invalida) := by
  obtain ⟨c, cs, rfl⟩ := List.exists_cons_of_ne_nil hc
  have hmem : op ∈ operadoresComparacao := by simpa using hop
  have hopne : op ≠ [] := by
    intro heq; subst heq; exact absurd hop (by decide)
  have hoe : List.isEmpty op = false := by
    cases op with
    | nil => exact absurd rfl hopne
    | cons a as => rfl
  unfold avaliarCondicaoSimples optFalsy
  simp only [hoe, hop, Bool.false_eq_true, if_false, Bool.not_true,
    Bool.false_or, decide_eq_true_eq, Bool.or_eq_true]
  rw [if_neg (by simp), if_neg (by
    rintro (h | h)
    · exact hne h
    · exact hnne h), if_neg hvn]

/-- The leaf evaluator on an emptiness operator reduces to the operator
application with a `None` expected value. -/
theorem avaliarCondicaoSimples_reduz_vazio (reMatch : Texto → Texto → Except Unit Bool)
    {campo op : Texto} (valor : Option Value) (dados contexto : Dados)
    (hc : campo ≠ [])
    (hop : op = "is_empty".toList ∨ op = "is_not_empty".toList) :
    avaliarCondicaoSimples reMatch (some campo) (some op) valor dados contexto =
      (aplicarOperador reMatch op (obterValorCampo campo dados contexto) VNone).mapError
        (fun _ => .invalida) := by
  obtain ⟨c, cs, rfl⟩ := List.exists_cons_of_ne_nil hc
  have hmem : op ∈ operadoresComparacao := by
    rcases hop with h | h <;> subst h <;> decide
  unfold avaliarCondicaoSimples optFalsy
  rcases hop with h | h <;> subst h <;> simp [hmem] <;>
    (intro hnm; exact absurd (by decide) hnm)

/-- **C2** (corrected).  For a whitelisted operator and a field name that is
absent from the record (and not a quoted/numeric/boolean literal), the leaf
evaluates with a `None` operand: the equality family gives `false` for `==`
but `true` for `!=`; the four ordering operators raise `InvalidRuleError`
(a `TypeError` on `None` wrapped by the evaluator); membership follows
null-membership of the expected collection, `not_in` being its negation;
the string operators and `matches` give `false`; `is_empty` gives `true`
and `is_not_empty` `false`.  Evaluation is thus neither uniformly `false`
nor always non-raising. -/
theorem c2_campo_ausente_semantica_nula
    (reMatch : Texto → Texto → Except Unit Bool)
    (campo : Texto) (dados : Dados) (v : Value)
    (hc : campo ≠ []) (ha : campoAusenteNaoLiteral campo dados) (hv : v ≠ VNone) :
    (avaliarCondicaoSimples reMatch (some campo) (some "==".toList) (some v) dados [] =
       .ok false) ∧
    (avaliarCondicaoSimples reMatch (some campo) (some "!=".toList) (some v) dados [] =
       .ok true) ∧
    (avaliarCondicaoSimples reMatch (some campo) (some ">".toList) (some v) dados [] =
       .error .invalida) ∧
    (avaliarCondicaoSimples reMatch (some campo) (some "<".toList) (some v) dados [] =
       .error .invalida) ∧
    (avaliarCondicaoSimples reMatch (some campo) (some ">=".toList) (some v) dados [] =
       .error .invalida) ∧
    (avaliarCondicaoSimples reMatch (some campo) (some "<=".toList) (some v) dados [] =
       .error .invalida) ∧
    (avaliarCondicaoSimples reMatch (some campo) (some "in".toList) (some v) dados [] =
       (pyInVal VNone v).mapError (fun _ => .invalida)) ∧
    (avaliarCondicaoSimples reMatch (some campo) (some "not_in".toList) (some v) dados [] =
       ((pyInVal VNone v).map (fun r => !r)).mapError (fun _ => .invalida)) ∧
    (avaliarCondicaoSimples reMatch (some campo) (some "contains".toList) (some v) dados [] =
       .ok false) ∧
    (avaliarCondicaoSimples reMatch (some campo) (some "not_contains".toList) (some v) dados [] =
       .ok false) ∧
    (avaliarCondicaoSimples reMatch (some campo) (some "startswith".toList) (some v) dados [] =
       .ok false) ∧
    (avaliarCondicaoSimples reMatch (some campo) (some "endswith".toList) (some v) dados [] =
       .ok false) ∧
    (avaliarCondicaoSimples reMatch (some campo) (some "matches".toList) (some v) dados [] =
       .ok false) ∧
    (avaliarCondicaoSimples reMatch (some campo) (some "is_empty".toList) (some v) dados [] =
       .ok true) ∧
    (avaliarCondicaoSimples reMatch (some campo) (some "is_not_empty".toList) (some v) dados [] =
       .ok false) := by
  have hobter := obterValorCampo_ausente ha
  refine ⟨?_, ?_, ?_, ?_, ?_, ?_, ?_, ?_, ?_, ?_, ?_, ?_, ?_, ?_, ?_⟩
  · rw [avaliarCondicaoSimples_reduz reMatch v dados [] hc (by decide) (by decide)
      (by decide) hv, hobter]
    simp +decide [aplicarOperador, pyEqVal_vnone_false hv, Except.mapError]
  · rw [avaliarCondicaoSimples_reduz reMatch v dados [] hc (by decide) (by decide)
      (by decide) hv, hobter]
    simp +decide [aplicarOperador, pyEqVal_vnone_false hv, Except.mapError]
  · rw [avaliarCondicaoSimples_reduz reMatch v dados [] hc (by decide) (by decide)
      (by decide) hv, hobter]
    simp +decide [aplicarOperador, pyLtVal_vnone_right, Except.mapError]
  · rw [avaliarCondicaoSimples_reduz reMatch v dados [] hc (by decide) (by decide)
      (by decide) hv, hobter]
    simp +decide [aplicarOperador, pyLtVal_vnone_left, Except.mapError]
  · rw [avaliarCondicaoSimples_reduz reMatch v dados [] hc (by decide) (by decide)
      (by decide) hv, hobter]
    simp +decide [aplicarOperador, pyLeVal_vnone_right, Except.mapError]
  · rw [avaliarCondicaoSimples_reduz reMatch v dados [] hc (by decide) (by decide)
      (by decide) hv, hobter]
    simp +decide [aplicarOperador, pyLeVal_vnone_left, Except.mapError]
  · rw [avaliarCondicaoSimples_reduz reMatch v dados [] hc (by decide) (by decide)
      (by decide) hv, hobter]
    simp +decide [aplicarOperador]
  · rw [avaliarCondicaoSimples_reduz reMatch v dados [] hc (by decide) (by decide)
      (by decide) hv, hobter]
    simp +decide [aplicarOperador]
  · rw [avaliarCondicaoSimples_reduz reMatch v dados [] hc (by decide) (by decide)
      (by decide) hv, hobter]
    simp +decide [aplicarOperador, VNone, Except.mapError]
  · rw [avaliarCondicaoSimples_reduz reMatch v dados [] hc (by decide) (by decide)
      (by decide) hv, hobter]
    simp +decide [aplicarOperador, VNone, Except.mapError]
  · rw [avaliarCondicaoSimples_reduz reMatch v dados [] hc (by decide) (by decide)
      (by decide) hv, hobter]
    simp +decide [aplicarOperador, VNone, Except.mapError]
  · rw [avaliarCondicaoSimples_reduz reMatch v dados [] hc (by decide) (by decide)
      (by decide) hv, hobter]
    simp +decide [aplicarOperador, VNone, Except.mapError]
  · rw [avaliarCondicaoSimples_reduz reMatch v dados [] hc (by decide) (by decide)
      (by decide) hv, hobter]
    simp +decide [aplicarOperador, VNone, Except.mapError]
  · rw [avaliarCondicaoSimples_reduz_vazio reMatch (some v) dados [] hc (Or.inl rfl),
      hobter]
    simp +decide [aplicarOperador, VNone, Except.mapError]
  · rw [avaliarCondicaoSimples_reduz_vazio reMatch (some v) dados [] hc (Or.inr rfl),
      hobter]
    simp +decide [aplicarOperador, VNone, Except.mapError]

/-- **C2** counterexample — the claim as stated is false: the whitelisted
operator `!=` on the missing field `x` evaluates to `true`, not `false`. -/
theorem c2_contraexemplo_diferente_retorna_true :
    avaliarCondicaoSimples (fun _ _ => .error ()) (some "x".toList)
      (some "!=".toList) (some (VInt 1)) [] [] = .ok true := by
  decide

/-- **C2** witness: the null-operand semantics at the concrete missing
field `x` against the empty record, with expected value `1`. -/
theorem c2_testemunha :
    (avaliarCondicaoSimples (fun _ _ => .error ()) (some "x".toList)
       (some "==".toList) (some (VInt 1)) [] [] = .ok false) ∧
    (avaliarCondicaoSimples (fun _ _ => .error ()) (some "x".toList)
       (some ">".toList) (some (VInt 1)) [] [] = .error .invalida) ∧
    (avaliarCondicaoSimples (fun _ _ => .error ()) (some "x".toList)
       (some "is_empty".toList) (some (VInt 1)) [] [] = .ok true) := by
  have h := c2_campo_ausente_semantica_nula (fun _ _ => .error ())
    "x".toList [] (VInt 1) (by decide) (by decide) (by decide)
  exact ⟨h.1, h.2.2.1, h.2.2.2.2.2.2.2.2.2.2.2.2.2.1⟩

/-- **C3** (corrected).  The degenerate composite cases: `AND` over an empty
child list is `true` and `OR` over an empty child list is `false`, as
claimed; but `NOT` does not require exactly one child — an empty `NOT`
returns `true`, and a `NOT` with one or more children evaluates all of them
and negates the **first** result, never rejecting the condition for its
child count. -/
theorem c3_composta_casos_degenerados
    (reMatch : Texto → Texto → Except Unit Bool) (dados contexto : Dados) :
    (avaliarCondicao reMatch (Condicao.composta "and".toList []) dados contexto =
       .ok true) ∧
    (avaliarCondicao reMatch (Condicao.composta "or".toList []) dados contexto =
       .ok false) ∧
    (avaliarCondicao reMatch (Condicao.composta "not".toList []) dados contexto =
       .ok true) ∧
    (∀ (c : Condicao) (cs : List Condicao) (r : Bool) (rs : List Bool),
       avaliarListaCondicoes reMatch (c :: cs) dados contexto = .ok (r :: rs) →
       avaliarCondicao reMatch (Condicao.composta "not".toList (c :: cs)) dados contexto =
         .ok (!r)) := by
  refine ⟨?_, ?_, ?_, ?_⟩
  · simp only [avaliarCondicao.eq_def, avaliarCondicaoComposta.eq_def,
      Condicao.composta, Condicao.vazia]
    norm_num [operadoresLogicos]
  · simp only [avaliarCondicao.eq_def, avaliarCondicaoComposta.eq_def,
      Condicao.composta, Condicao.vazia]
    norm_num [operadoresLogicos]
  · simp only [avaliarCondicao.eq_def, avaliarCondicaoComposta.eq_def,
      Condicao.composta, Condicao.vazia]
    norm_num [operadoresLogicos]
  · intro c cs r rs hl
    simp only [avaliarCondicao.eq_def, avaliarCondicaoComposta.eq_def,
      Condicao.composta, Condicao.vazia]
    norm_num [operadoresLogicos]
    rw [hl]
    simp +decide [aplicarOperadorLogico]

/-- **C3** counterexample — the claim as stated is false: a `NOT` composite
with two children is not rejected as an invalid rule; it evaluates (to the
negation of its first child, here `False`). -/
theorem c3_contraexemplo_not_com_dois_filhos :
    avaliarCondicao (fun _ _ => .error ())
      (Condicao.composta "not".toList
        [Condicao.mk none [] none none none, Condicao.mk none [] none none none])
      [] [] = .ok false := by
  simp only [avaliarCondicao.eq_def, avaliarCondicaoComposta.eq_def,
    avaliarListaCondicoes.eq_def, Condicao.composta, Condicao.vazia]
  norm_num [operadoresLogicos, aplicarOperadorLogico]
  decide

/-- **C3** witness: the degenerate cases and the single-child `NOT` at the
empty record. -/
theorem c3_testemunha :
    avaliarCondicao (fun _ _ => .error ())
      (Condicao.composta "not".toList [Condicao.mk none [] none none none])
      [] [] = .ok false := by
  have h := (c3_composta_casos_degenerados (fun _ _ => .error ()) [] []).2.2.2
    (Condicao.mk none [] none none none) [] true []
  apply h
  simp only [avaliarListaCondicoes.eq_def, avaliarCondicao.eq_def, Condicao.vazia]
  norm_num

/-- Unfolding `avaliar_secoes_ativas` over a rule-less definition. -/
theorem avaliarSecoesAtivas_cons_none (reMatch : Texto → Texto → Except Unit Bool)
    (s0 : Texto) (d0 : Definicao) (rest : List (Texto × Definicao)) (dados : Dados)
    (hr : d0.regra = none) :
    avaliarSecoesAtivas reMatch ((s0, d0) :: rest) dados =
      s0 :: avaliarSecoesAtivas reMatch rest dados := by
  conv_lhs => unfold avaliarSecoesAtivas
  rw [hr]

/-- Unfolding `avaliar_secoes_ativas` over a definition with a rule: the id
is kept exactly when the rule evaluates to `ok true`; `ok false` and an
error both skip it. -/
theorem avaliarSecoesAtivas_cons_some (reMatch : Texto → Texto → Except Unit Bool)
    (s0 : Texto) (d0 : Definicao) (rest : List (Texto × Definicao)) (dados : Dados)
    (r : Condicao) (hr : d0.regra = some r) :
    avaliarSecoesAtivas reMatch ((s0, d0) :: rest) dados =
      (if avaliarCondicao reMatch r dados [] = .ok true then
        s0 :: avaliarSecoesAtivas reMatch rest dados
      else avaliarSecoesAtivas reMatch rest dados) := by
  conv_lhs => unfold avaliarSecoesAtivas
  rw [hr]
  cases h : avaliarCondicao reMatch r dados [] with
  | ok b =>
      cases b
      · rw [if_neg (by simp)]
        simp only [h]
      · rw [if_pos rfl]
        simp only [h]
  | error e =>
      rw [if_neg (by simp)]
      simp only [h]

/-- A section id in the active list comes from the definitions. -/
theorem avaliarSecoesAtivas_subset (reMatch : Texto → Texto → Except Unit Bool)
    (defs : List (Texto × Definicao)) (dados : Dados) {sid : Texto}
    (h : sid ∈ avaliarSecoesAtivas reMatch defs dados) : sid ∈ defs.map Prod.fst := by
  induction defs with
  | nil => simp [avaliarSecoesAtivas] at h
  | cons cab rest ih =>
      obtain ⟨s0, d0⟩ := cab
      match hr : d0.regra with
      | none =>
          rw [avaliarSecoesAtivas_cons_none reMatch s0 d0 rest dados hr] at h
          rcases List.mem_cons.1 h with h' | h'
          · simp [h']
          · exact List.mem_cons_of_mem _ (ih h')
      | some r =>
          rw [avaliarSecoesAtivas_cons_some reMatch s0 d0 rest dados r hr] at h
          by_cases he : avaliarCondicao reMatch r dados [] = .ok true
          · rw [if_pos he] at h
            rcases List.mem_cons.1 h with h' | h'
            · simp [h']
            · exact List.mem_cons_of_mem _ (ih h')
          · rw [if_neg he] at h
            exact List.mem_cons_of_mem _ (ih h)

/-- **C4** (confirmed).  Over definitions with unique ids (a Python dict):
a definition without an activation rule is always in the returned active
list; a definition whose rule evaluation raises `InvalidRuleError` is not in
it; and the activation function is total by construction — it returns a
plain list, catching every evaluation error instead of propagating it. -/
theorem c4_avaliar_secoes_ativas_total (reMatch : Texto → Texto → Except Unit Bool)
    (defs : List (Texto × Definicao)) (dados : Dados)
    (hnodup : (defs.map Prod.fst).Nodup) :
    ∀ sid d, (sid, d) ∈ defs →
      (d.regra = none → sid ∈ avaliarSecoesAtivas reMatch defs dados) ∧
      (∀ r e, d.regra = some r → avaliarCondicao reMatch r dados [] = .error e →
        sid ∉ avaliarSecoesAtivas reMatch defs dados) := by
  induction defs with
  | nil => intro sid d hm; simp at hm
  | cons cab rest ih =>
      obtain ⟨s0, d0⟩ := cab
      intro sid d hm
      have hnd : s0 ∉ rest.map Prod.fst ∧ (rest.map Prod.fst).Nodup := by
        simpa using hnodup
      rcases List.mem_cons.1 hm with h' | h'
      · have hsid : s0 = sid := by cases h'; rfl
        have hd : d0 = d := by cases h'; rfl
        subst hsid
        subst hd
        constructor
        · intro hreg
          rw [avaliarSecoesAtivas_cons_none reMatch s0 d0 rest dados hreg]
          exact List.mem_cons_self _ _
        · intro r e hreg herr hcontra
          rw [avaliarSecoesAtivas_cons_some reMatch s0 d0 rest dados r hreg,
            if_neg (by rw [herr]; simp)] at hcontra
          exact hnd.1 (avaliarSecoesAtivas_subset reMatch rest dados hcontra)
      · have hkey : sid ∈ rest.map Prod.fst := List.mem_map.2 ⟨(sid, d), h', rfl⟩
        have hne : sid ≠ s0 := by
          intro he; rw [he] at hkey; exact hnd.1 hkey
        have hrec := ih hnd.2 sid d h'
        constructor
        · intro hreg
          match hr : d0.regra with
          | none =>
              rw [avaliarSecoesAtivas_cons_none reMatch s0 d0 rest dados hr]
              exact List.mem_cons_of_mem _ (hrec.1 hreg)
          | some r0 =>
              rw [avaliarSecoesAtivas_cons_some reMatch s0 d0 rest dados r0 hr]
              by_cases he : avaliarCondicao reMatch r0 dados [] = .ok true
              · rw [if_pos he]
                exact List.mem_cons_of_mem _ (hrec.1 hreg)
              · rw [if_neg he]
                exact hrec.1 hreg
        · intro r e hreg herr hcontra
          match hr : d0.regra with
          | none =>
              rw [avaliarSecoesAtivas_cons_none reMatch s0 d0 rest dados hr] at hcontra
              rcases List.mem_cons.1 hcontra with h'' | h''
              · exact hne h''
              · exact hrec.2 r e hreg herr h''
          | some r0 =>
              rw [avaliarSecoesAtivas_cons_some reMatch s0 d0 rest dados r0 hr] at hcontra
              by_cases he : avaliarCondicao reMatch r0 dados [] = .ok true
              · rw [if_pos he] at hcontra
                rcases List.mem_cons.1 hcontra with h'' | h''
                · exact hne h''
                · exact hrec.2 r e hreg herr h''
              · rw [if_neg he] at hcontra
                exact hrec.2 r e hreg herr hcontra

/-- **C4** witness: a rule-less section `A` is active and a section `B`
whose rule has an invalid operator is excluded, at the empty record. -/
theorem c4_testemunha :
    "A".toList ∈ avaliarSecoesAtivas (fun _ _ => .error ())
      [("A".toList, Definicao.mk none),
       ("B".toList, Definicao.mk (some (Condicao.simples "x".toList "??".toList (VInt 1))))]
      [] ∧
    "B".toList ∉ avaliarSecoesAtivas (fun _ _ => .error ())
      [("A".toList, Definicao.mk none),
       ("B".toList, Definicao.mk (some (Condicao.simples "x".toList "??".toList (VInt 1))))]
      [] := by
  have h := c4_avaliar_secoes_ativas_total (fun _ _ => .error ())
    [("A".toList, Definicao.mk none),
     ("B".toList, Definicao.mk (some (Condicao.simples "x".toList "??".toList (VInt 1))))]
    [] (by decide)
  have hA := (h "A".toList (Definicao.mk none) (List.Mem.head _)).1 rfl
  have hB := (h "B".toList
      (Definicao.mk (some (Condicao.simples "x".toList "??".toList (VInt 1))))
      (List.Mem.tail _ (List.Mem.head _))).2
    (Condicao.simples "x".toList "??".toList (VInt 1)) .invalida rfl
    (by
      simp only [avaliarCondicao.eq_def, Condicao.simples, Condicao.vazia]
      norm_num [operadoresLogicos, avaliarCondicaoSimples, optFalsy]
      decide)
  exact ⟨hA, hB⟩

/-- **C8** (confirmed).  The safety filter runs before any evaluation: an
expression it rejects makes `avaliar` fail with the security error, and the
result does not depend on the dynamic-evaluation fallback at all — any two
fallback evaluators give the same outcome on a rejected expression. -/
theorem c8_filtro_seguranca_precede_avaliacao
    (pyEval pyEval2 : Texto → Dados → Except Unit Value)
    (expressao : Texto) (dados : Dados)
    (h : verificarSeguranca expressao = false) :
    avaliar pyEval expressao dados = .error .insegura ∧
    avaliar pyEval expressao dados = avaliar pyEval2 expressao dados := by
  have hne : expressao.isEmpty = false := by
    cases expressao with
    | nil => exact absurd h (by decide)
    | cons c rest => rfl
  have chave : ∀ f, avaliar f expressao dados = .error .insegura := by
    intro f
    rw [avaliar.eq_def, hne, h]
    rfl
  exact ⟨chave pyEval, (chave pyEval).trans (chave pyEval2).symm⟩

/-- **C8** witness: `"import os"` is rejected and never reaches either
fallback evaluator. -/
theorem c8_testemunha :
    verificarSeguranca "import os".toList = false ∧
    avaliar (fun _ _ => .ok (VBool true)) "import os".toList [] = .error .insegura ∧
    avaliar (fun _ _ => .ok (VBool true)) "import os".toList [] =
      avaliar (fun _ _ => .ok (VBool false)) "import os".toList [] := by
  have h := c8_filtro_seguranca_precede_avaliacao (fun _ _ => .ok (VBool true))
    (fun _ _ => .ok (VBool false)) "import os".toList [] (by decide)
  exact ⟨by decide, h.1, h.2⟩

/-- **C9** (code bug).  The statistics dictionary actually returned by
`processar_documento` (step 7, lines 167–175) has no
`porcentagem_completude` key at all, for any run state: the helper
`_registrar_estatisticas` that derives the percentage (18 of 20 ⇒ 90) is
defined but never called, so the percentage never reaches the result. -/
theorem c9_porcentagem_ausente_das_estatisticas :
    (∀ st secs ativas tempo,
      "porcentagem_completude".toList ∉
        (estatisticasProcessarDocumento st secs ativas tempo).map Prod.fst) ∧
    ("porcentagem_completude".toList, StatVal.rat 90) ∈
      registrarEstatisticas (fun _ => none) estadoC9 [] ∅ [] [] := by
  constructor
  · intro st secs ativas tempo
    simp [estatisticasProcessarDocumento]
  · have h1 : estadoC9.campos_encontrados.card = 20 := by decide
    have h2 : estadoC9.campos_substituidos.card = 18 := by decide
    simp only [registrarEstatisticas, h1, h2]
    norm_num

/-- **C1** (code bug).  Fragment-boundary invariance fails: the same logical
text `Hello {{a}} world` substituted with `a = X` yields `Hello X` when held
in one run (the text after the placeholder is dropped) but `Hello X world`
when split as `Hello {{a}}` / ` world` — the result depends on how the text
is partitioned into runs. -/
theorem c1_substituicao_depende_da_fragmentacao :
    ["Hello \x7b\x7ba\x7d\x7d world".toList].flatten =
      ["Hello \x7b\x7ba\x7d\x7d".toList, " world".toList].flatten ∧
    (processarRunsFragmentados (fun _ _ => []) (fun _ => none)
        [("a".toList, VStr "X")]
        ["Hello \x7b\x7ba\x7d\x7d world".toList] EstadoCampos.inicial).1.flatten =
      "Hello X".toList ∧
    (processarRunsFragmentados (fun _ _ => []) (fun _ => none)
        [("a".toList, VStr "X")]
        ["Hello \x7b\x7ba\x7d\x7d".toList, " world".toList] EstadoCampos.inicial).1.flatten =
      "Hello X world".toList := by
  refine ⟨rfl, ?_, ?_⟩ <;> decide

/-- The scanner finds exactly one match on a lone placeholder whose name has
no brace: it spans the whole text and captures the interior. -/
theorem scanGo_dentro_sem_chaves (nome : Texto) (h1 : '{' ∉ nome) (h2 : '}' ∉ nome) :
    ∀ (i s : Nat) (acc : Texto),
    scanPlaceholdersGo (nome ++ ['}', '}']) i (.dentro s acc) =
      if acc.reverse ++ nome = [] then []
      else [(s, i + nome.length + 2, acc.reverse ++ nome)] := by
  induction nome with
  | nil =>
      intro i s acc
      simp only [List.nil_append, List.append_nil]
      show scanPlaceholdersGo ['}', '}'] i (.dentro s acc) = _
      simp only [scanPlaceholdersGo]
      norm_num
      cases acc with
      | nil => simp [scanPlaceholdersGo]
      | cons a as => simp [scanPlaceholdersGo]
  | cons c rest ih =>
      intro i s acc
      have hc1 : c ≠ '{' := fun h => h1 (h ▸ List.mem_cons_self _ _)
      have hc2 : c ≠ '}' := fun h => h2 (h ▸ List.mem_cons_self _ _)
      have h1' : '{' ∉ rest := fun h => h1 (List.mem_cons_of_mem _ h)
      have h2' : '}' ∉ rest := fun h => h2 (List.mem_cons_of_mem _ h)
      show scanPlaceholdersGo (c :: (rest ++ ['}', '}'])) i (.dentro s acc) = _
      simp only [scanPlaceholdersGo, if_neg hc1, if_neg hc2]
      rw [ih h1' h2' (i + 1) s (c :: acc)]
      simp
      omega

theorem scanPlaceholders_unico (nome : Texto) (h0 : nome ≠ [])
    (h1 : '{' ∉ nome) (h2 : '}' ∉ nome) :
    scanPlaceholders ('{' :: '{' :: (nome ++ ['}', '}'])) =
      [(0, nome.length + 4, nome)] := by
  unfold scanPlaceholders
  show scanPlaceholdersGo ('{' :: '{' :: (nome ++ ['}', '}'])) 0 .fora = _
  simp only [scanPlaceholdersGo, if_pos rfl]
  rw [scanGo_dentro_sem_chaves nome h1 h2 2 (2 - 1 - 1) []]
  simp [h0]
  omega

/-- **C5** (confirmed).  A discovered placeholder whose stripped name is
absent from the data record: when the metadata declares the field required,
both substitution paths replace it by the visibly-flagged obligatory marker
(which contains the field name) and add the name to the
missing-and-required set; when it is optional or has no metadata, both
paths substitute the empty string; in every case the name joins the missing
set. -/
theorem c5_campo_obrigatorio_ausente
    (fmtMon : Value → Option Texto → Texto) (meta : Texto → Option CampoInfo)
    (dados : Dados) (st : EstadoCampos) (nome : Texto)
    (h0 : nome ≠ []) (h1 : '{' ∉ nome) (h2 : '}' ∉ nome)
    (hs : pyStrip nome = nome) (hm : ehMarcadorSecao nome = false)
    (hd : lookupDados dados nome = none) :
    marcadorObrigatorio nome =
      "**[CAMPO OBRIGATÓRIO: ".toList ++ nome ++ "]**".toList ∧
    substituirCampos fmtMon meta dados ('{' :: '{' :: (nome ++ ['}', '}'])) st =
      ((if obrigatorioDe (meta nome) then marcadorObrigatorio nome else []),
       if obrigatorioDe (meta nome) then
         { st with campos_ausentes := insert nome st.campos_ausentes,
                   campos_obrigatorios_ausentes :=
                     insert nome st.campos_obrigatorios_ausentes }
       else { st with campos_ausentes := insert nome st.campos_ausentes }) ∧
    processarRunsFragmentados fmtMon meta dados
        ['{' :: '{' :: (nome ++ ['}', '}'])] st =
      ([if obrigatorioDe (meta nome) then marcadorObrigatorio nome else []],
       (if obrigatorioDe (meta nome) then
         { st with campos_encontrados := insert nome st.campos_encontrados,
                   campos_ausentes := insert nome st.campos_ausentes,
                   campos_obrigatorios_ausentes :=
                     insert nome st.campos_obrigatorios_ausentes }
        else
         { st with campos_encontrados := insert nome st.campos_encontrados,
                   campos_ausentes := insert nome st.campos_ausentes }), true) := by
  have hlen : ('{' :: '{' :: (nome ++ ['}', '}'])).length = nome.length + 4 := by
    simp
  refine ⟨rfl, ?_, ?_⟩
  · unfold substituirCampos
    rw [scanPlaceholders_unico nome h0 h1 h2]
    simp only [substituirCamposGo, Nat.sub_zero, List.take_zero, hs]
    rw [← hlen, List.drop_length]
    unfold substituirCallback
    rw [hm, hd]
    cases hob : obrigatorioDe (meta nome) <;> simp [hob]
  · have hfl : (['{' :: '{' :: (nome ++ ['}', '}'])] : List Texto).flatten =
        '{' :: '{' :: (nome ++ ['}', '}']) := by simp
    simp only [processarRunsFragmentados]
    rw [hfl, scanPlaceholders_unico nome h0 h1 h2]
    simp only [processarRunsFragmentadosGo, hs, hm]
    have haf : runsAfetadas ['{' :: '{' :: (nome ++ ['}', '}'])] 0 (nome.length + 4) =
        [(0, 0, nome.length + 4)] := by
      simp [runsAfetadas, runsAfetadasGo]
    rw [haf, hd]
    have hap : ∀ txt, aplicarSubstituicao ['{' :: '{' :: (nome ++ ['}', '}'])]
        [(0, 0, nome.length + 4)] txt = [txt] := by
      intro txt
      simp [aplicarSubstituicao]
    cases hob : obrigatorioDe (meta nome) <;>
      simp [hob, hap, processarRunsFragmentadosGo]

/-- **C5** witness: the required field `salario_base`, missing from an empty
record, is rendered as the obligatory marker by both paths. -/
theorem c5_testemunha :
    obrigatorioDe (metaC5 "salario_base".toList) = true ∧
    (marcadorObrigatorio "salario_base".toList =
      "**[CAMPO OBRIGATÓRIO: ".toList ++ "salario_base".toList ++ "]**".toList ∧
    substituirCampos (fun _ _ => []) metaC5 []
        ('{' :: '{' :: ("salario_base".toList ++ ['}', '}'])) EstadoCampos.inicial =
      ((if obrigatorioDe (metaC5 "salario_base".toList) then
          marcadorObrigatorio "salario_base".toList else []),
       if obrigatorioDe (metaC5 "salario_base".toList) then
         { EstadoCampos.inicial with
             campos_ausentes :=
               insert "salario_base".toList EstadoCampos.inicial.campos_ausentes,
             campos_obrigatorios_ausentes :=
               insert "salario_base".toList
                 EstadoCampos.inicial.campos_obrigatorios_ausentes }
       else
         { EstadoCampos.inicial with
             campos_ausentes :=
               insert "salario_base".toList EstadoCampos.inicial.campos_ausentes }) ∧
    processarRunsFragmentados (fun _ _ => []) metaC5 []
        ['{' :: '{' :: ("salario_base".toList ++ ['}', '}'])] EstadoCampos.inicial =
      ([if obrigatorioDe (metaC5 "salario_base".toList) then
          marcadorObrigatorio "salario_base".toList else []],
       (if obrigatorioDe (metaC5 "salario_base".toList) then
         { EstadoCampos.inicial with
             campos_encontrados :=
               insert "salario_base".toList EstadoCampos.inicial.campos_encontrados,
             campos_ausentes :=
               insert "salario_base".toList EstadoCampos.inicial.campos_ausentes,
             campos_obrigatorios_ausentes :=
               insert "salario_base".toList
                 EstadoCampos.inicial.campos_obrigatorios_ausentes }
        else
         { EstadoCampos.inicial with
             campos_encontrados :=
               insert "salario_base".toList EstadoCampos.inicial.campos_encontrados,
             campos_ausentes :=
               insert "salario_base".toList
                 EstadoCampos.inicial.campos_ausentes }), true)) :=
  ⟨by decide,
   c5_campo_obrigatorio_ausente (fun _ _ => []) metaC5 [] EstadoCampos.inicial
     "salario_base".toList (by decide) (by decide) (by decide) (by decide)
     (by decide) (by decide)⟩

/-- Clearing a unit twice is the same as clearing it once. -/
theorem limparParagrafo_idem (p : Paragrafo) :
    limparParagrafo (limparParagrafo p) = limparParagrafo p := by
  simp [limparParagrafo, List.map_map]

theorem limparParagrafoIdx_length (d : List Paragrafo) (i : Nat) :
    (limparParagrafoIdx d i).length = d.length := by
  simp [limparParagrafoIdx]

theorem limparParagrafoIdx_getElem_ne (d : List Paragrafo) (i j : Nat) (h : i ≠ j) :
    (limparParagrafoIdx d i)[j]? = d[j]? := by
  simp [limparParagrafoIdx, List.getElem?_set_ne h]

theorem limparParagrafoIdx_getElem_eq (d : List Paragrafo) (i : Nat)
    (h : i < d.length) :
    (limparParagrafoIdx d i)[i]? = some (limparParagrafo (d.getD i default)) := by
  simp [limparParagrafoIdx, List.getElem?_set_self, h]

/-- The inner clearing fold of the pruning loop: length preserved, indices
outside the list untouched, indices in the list cleared exactly once. -/
theorem foldl_limpar_spec (idxs : List Nat) :
    ∀ (d : List Paragrafo),
    ((idxs.foldl limparParagrafoIdx d).length = d.length) ∧
    (∀ j, j ∉ idxs → (idxs.foldl limparParagrafoIdx d)[j]? = d[j]?) ∧
    (∀ j, j ∈ idxs → j < d.length →
      (idxs.foldl limparParagrafoIdx d)[j]? =
        some (limparParagrafo (d.getD j default))) := by
  induction idxs with
  | nil => intro d; simp
  | cons i rest ih =>
      intro d
      have hstep : (i :: rest).foldl limparParagrafoIdx d =
          rest.foldl limparParagrafoIdx (limparParagrafoIdx d i) := rfl
      obtain ⟨ihl, ihn, iht⟩ := ih (limparParagrafoIdx d i)
      refine ⟨?_, ?_, ?_⟩
      · rw [hstep, ihl, limparParagrafoIdx_length]
      · intro j hj
        have hji : i ≠ j := fun h => hj (h ▸ List.mem_cons_self _ _)
        have hjr : j ∉ rest := fun h => hj (List.mem_cons_of_mem _ h)
        rw [hstep, ihn j hjr, limparParagrafoIdx_getElem_ne d i j hji]
      · intro j hj hlt
        rw [hstep]
        by_cases hjr : j ∈ rest
        · have hlt' : j < (limparParagrafoIdx d i).length := by
            rw [limparParagrafoIdx_length]; exact hlt
          rw [iht j hjr hlt']
          by_cases hij : i = j
          · subst hij
            have hx := limparParagrafoIdx_getElem_eq d i hlt
            have hgd : (limparParagrafoIdx d i).getD i default =
                limparParagrafo (d.getD i default) := by
              rw [List.getD_eq_getElem?_getD, hx]
              rfl
            rw [hgd, limparParagrafo_idem]
          · have hgd : (limparParagrafoIdx d i).getD j default = d.getD j default := by
              rw [List.getD_eq_getElem?_getD, limparParagrafoIdx_getElem_ne d i j hij,
                ← List.getD_eq_getElem?_getD]
            rw [hgd]
        · have hij : i = j := by
            rcases List.mem_cons.1 hj with h | h
            · exact h.symm
            · exact absurd h hjr
          subst hij
          rw [ihn i hjr, limparParagrafoIdx_getElem_eq d i hlt]

/-- Pointwise effect of the pruning fold over the whole mapping. -/
theorem podar_spec (ativas : List Texto) :
    ∀ (mapeamento : List (Texto × SecaoInfo)) (doc : List Paragrafo),
    ((podarSecoesInativas doc mapeamento ativas).length = doc.length) ∧
    (∀ j, ¬ tocadoPor mapeamento ativas j →
      (podarSecoesInativas doc mapeamento ativas)[j]? = doc[j]?) ∧
    (∀ j, j < doc.length → tocadoPor mapeamento ativas j →
      (podarSecoesInativas doc mapeamento ativas)[j]? =
        some (limparParagrafo (doc.getD j default))) := by
  intro mapeamento
  induction mapeamento with
  | nil =>
      intro doc
      refine ⟨rfl, fun j _ => rfl, fun j _ ht => ?_⟩
      rcases ht with ⟨e, he, _⟩
      exact absurd he (List.not_mem_nil e)
  | cons e rest ih =>
      intro doc
      have hstep : podarSecoesInativas doc (e :: rest) ativas =
          podarSecoesInativas
            (if ativas.contains e.1 then doc
             else e.2.elementos.foldl limparParagrafoIdx doc) rest ativas := rfl
      by_cases hc : ativas.contains e.1
      · rw [hstep, if_pos hc]
        obtain ⟨ihl, ihn, iht⟩ := ih doc
        refine ⟨ihl, fun j hj => ihn j ?_, fun j hlt hj => iht j hlt ?_⟩
        · intro ⟨x, hx, hxc, hxe⟩
          exact hj ⟨x, List.mem_cons_of_mem _ hx, hxc, hxe⟩
        · rcases hj with ⟨x, hx, hxc, hxe⟩
          rcases List.mem_cons.1 hx with h | h
          · subst h; rw [hc] at hxc; exact absurd hxc (by simp)
          · exact ⟨x, h, hxc, hxe⟩
      · rw [hstep, if_neg hc]
        have hcf : ativas.contains e.1 = false := by
          exact Bool.not_eq_true _ ▸ eq_false_of_ne_true hc
        obtain ⟨fl, fn, ft⟩ := foldl_limpar_spec e.2.elementos doc
        obtain ⟨ihl, ihn, iht⟩ := ih (e.2.elementos.foldl limparParagrafoIdx doc)
        refine ⟨by rw [ihl, fl], ?_, ?_⟩
        · intro j hj
          have hje : j ∉ e.2.elementos := fun h =>
            hj ⟨e, List.mem_cons_self _ _, hcf, h⟩
          have hjr : ¬ tocadoPor rest ativas j := fun ⟨x, hx, hxc, hxe⟩ =>
            hj ⟨x, List.mem_cons_of_mem _ hx, hxc, hxe⟩
          rw [ihn j hjr, fn j hje]
        · intro j hlt hj
          by_cases hjr : tocadoPor rest ativas j
          · have hlt' : j < (e.2.elementos.foldl limparParagrafoIdx doc).length := by
              rw [fl]; exact hlt
            rw [iht j hlt' hjr]
            by_cases hje : j ∈ e.2.elementos
            · have hx := ft j hje hlt
              have hgd : (e.2.elementos.foldl limparParagrafoIdx doc).getD j default =
                  limparParagrafo (doc.getD j default) := by
                rw [List.getD_eq_getElem?_getD, hx]
                rfl
              rw [hgd, limparParagrafo_idem]
            · have hgd : (e.2.elementos.foldl limparParagrafoIdx doc).getD j default =
                  doc.getD j default := by
                rw [List.getD_eq_getElem?_getD, fn j hje, ← List.getD_eq_getElem?_getD]
              rw [hgd]
          · have hje : j ∈ e.2.elementos := by
              rcases hj with ⟨x, hx, hxc, hxe⟩
              rcases List.mem_cons.1 hx with h | h
              · subst h; exact hxe
              · exact absurd ⟨x, h, hxc, hxe⟩ hjr
            rw [ihn j hjr, ft j hje hlt]

/-- **C6** (confirmed).  The pruning frame property: pruning never deletes a
unit (the length is unchanged); every unit inside a mapped inactive section
has its text content fully cleared — its logical text becomes empty and
every fragment it is left with is empty (python-docx's `text` setter leaves
a single empty run) — while the unit itself and its style are kept; every
unit belonging only to active or unmapped sections is byte-for-byte
unchanged. -/
theorem c6_poda_quadro (doc : List Paragrafo)
    (mapeamento : List (Texto × SecaoInfo)) (ativas : List Texto) :
    ((podarSecoesInativas doc mapeamento ativas).length = doc.length) ∧
    (∀ j, j < doc.length → tocadoPor mapeamento ativas j →
      (podarSecoesInativas doc mapeamento ativas)[j]? =
        some (limparParagrafo (doc.getD j default)) ∧
      textoParagrafo (limparParagrafo (doc.getD j default)) = [] ∧
      (∀ f ∈ (limparParagrafo (doc.getD j default)).runs, f.text = []) ∧
      (limparParagrafo (doc.getD j default)).estilo =
        (doc.getD j default).estilo) ∧
    (∀ j, ¬ tocadoPor mapeamento ativas j →
      (podarSecoesInativas doc mapeamento ativas)[j]? = doc[j]?) := by
  obtain ⟨hl, hn, ht⟩ := podar_spec ativas mapeamento doc
  refine ⟨hl, fun j hlt hj => ⟨ht j hlt hj, ?_, ?_, rfl⟩, hn⟩
  · simp [limparParagrafo, textoParagrafo]
  · simp [limparParagrafo]

/-- **C7** counterexample: with no requested section and a record activating
nothing, section processing returns the document unchanged — its
marker-only paragraph, which the cleanup pass would remove, is still
there. -/
theorem c7_contraexemplo_limpeza_pulada :
    processarSecoesCondicionais [] [] docC7 = docC7 ∧
    deveRemover (docC7.getD 0 default) = true ∧
    limparDocumentoAposProcessamento docC7 = [] := by
  refine ⟨?_, by decide, by decide⟩
  decide

/-- **C7** (corrected).  The cleanup pass is *not* unconditional: it runs
only when the effective active set and the section mapping are both
nonempty (lines 206–222 return early otherwise).  Under those two
conditions, section processing is exactly pruning followed by cleanup, and
no marker-only or all-empty paragraph remains in the output. -/
theorem c7_limpeza_apos_poda (ativas : List Texto) (dados : Dados)
    (doc : List Paragrafo)
    (h1 : (if ativas.isEmpty then determinarSecoesAtivas dados
           else ativas).isEmpty = false)
    (h2 : (mapearSecoesNoDocumento doc).isEmpty = false) :
    processarSecoesCondicionais ativas dados doc =
      limparDocumentoAposProcessamento
        (podarSecoesInativas doc (mapearSecoesNoDocumento doc)
          (if ativas.isEmpty then determinarSecoesAtivas dados else ativas)) ∧
    ∀ p ∈ processarSecoesCondicionais ativas dados doc,
      deveRemover p = false := by
  have he : processarSecoesCondicionais ativas dados doc =
      limparDocumentoAposProcessamento
        (podarSecoesInativas doc (mapearSecoesNoDocumento doc)
          (if ativas.isEmpty then determinarSecoesAtivas dados else ativas)) := by
    simp only [processarSecoesCondicionais]
    rw [h1, h2]
    rfl
  refine ⟨he, ?_⟩
  intro p hp
  rw [he] at hp
  unfold limparDocumentoAposProcessamento at hp
  have := List.of_mem_filter hp
  simpa using this

/-- **C7** witness: a marker-delimited section requested active — both
early-return guards fail, so the pipeline is pruning followed by
cleanup. -/
theorem c7_testemunha :
    processarSecoesCondicionais ["HORAS_EXTRAS".toList] [] docC7w =
      limparDocumentoAposProcessamento
        (podarSecoesInativas docC7w (mapearSecoesNoDocumento docC7w)
          (if (["HORAS_EXTRAS".toList] : List Texto).isEmpty then
            determinarSecoesAtivas [] else ["HORAS_EXTRAS".toList])) :=
  (c7_limpeza_apos_poda ["HORAS_EXTRAS".toList] [] docC7w (by decide)
    (by decide)).1

theorem substituirCallback_inv (fmtMon : Value → Option Texto → Texto)
    (meta : Texto → Option CampoInfo) (dados : Dados) (st : EstadoCampos)
    (nome matched : Texto) (h : InvC10 dados st) :
    InvC10 dados (substituirCallback fmtMon meta dados st nome matched).2 := by
  obtain ⟨hs, ha⟩ := h
  unfold substituirCallback
  by_cases hm : ehMarcadorSecao nome
  · rw [if_pos hm]
    exact ⟨hs, ha⟩
  · rw [if_neg hm]
    cases hl : lookupDados dados nome with
    | some v =>
        refine ⟨?_, ha⟩
        intro n hn
        rcases Finset.mem_insert.1 hn with h | h
        · subst h; rw [hl]; simp
        · exact hs n h
    | none =>
        cases ho : obrigatorioDe (meta nome)
        all_goals
          simp only [ho, if_true, if_false, Bool.false_eq_true, eq_self_iff_true]
        all_goals
          refine ⟨hs, ?_⟩
          intro n hn
          rcases Finset.mem_insert.1 hn with h | h
          · subst h; exact hl
          · exact ha n h

theorem substituirCamposGo_inv (fmtMon : Value → Option Texto → Texto)
    (meta : Texto → Option CampoInfo) (dados : Dados) :
    ∀ (ms : List (Nat × Nat × Texto)) (resto : Texto) (pos : Nat)
      (st : EstadoCampos), InvC10 dados st →
      InvC10 dados (substituirCamposGo fmtMon meta dados resto pos ms st).2 := by
  intro ms
  induction ms with
  | nil => intro resto pos st h; exact h
  | cons m rest ih =>
      intro resto pos st h
      obtain ⟨ini, fim, interior⟩ := m
      exact ih _ _ _ (substituirCallback_inv fmtMon meta dados st _ _ h)

theorem fragGo_inv (fmtMon : Value → Option Texto → Texto)
    (meta : Texto → Option CampoInfo) (dados : Dados) (runsTexto : List Texto) :
    ∀ (ms : List (Nat × Nat × Texto)) (current : List Texto)
      (st : EstadoCampos) (proc : Bool),
      (InvC10 dados st →
        InvC10 dados (processarRunsFragmentadosGo fmtMon meta dados runsTexto
          ms current st proc).2.1) ∧
      (InvFrag st →
        InvFrag (processarRunsFragmentadosGo fmtMon meta dados runsTexto
          ms current st proc).2.1) := by
  intro ms
  induction ms with
  | nil => intro current st proc; exact ⟨fun h => h, fun h => h⟩
  | cons m rest ih =>
      intro current st proc
      obtain ⟨ini, fim, interior⟩ := m
      simp only [processarRunsFragmentadosGo]
      by_cases hm : ehMarcadorSecao (pyStrip interior)
      · rw [if_pos hm]
        exact ih current st proc
      · rw [if_neg hm]
        cases hl : lookupDados dados (pyStrip interior) with
        | some v =>
            constructor
            · intro ⟨hs, ha⟩
              refine (ih _ _ _).1 ⟨?_, ha⟩
              intro n hn
              rcases Finset.mem_insert.1 hn with h | h
              · subst h; rw [hl]; simp
              · exact hs n h
            · intro ⟨hs, ha⟩
              refine (ih _ _ _).2 ⟨?_, ?_⟩
              · exact Finset.insert_subset_insert _ hs
              · exact ha.trans (Finset.subset_insert _ _)
        | none =>
            cases ho : obrigatorioDe (meta (pyStrip interior))
            all_goals
              simp only [ho, if_true, if_false, Bool.false_eq_true,
                eq_self_iff_true]
            all_goals
              constructor
              · intro ⟨hs, ha⟩
                refine (ih _ _ _).1 ⟨hs, ?_⟩
                intro n hn
                rcases Finset.mem_insert.1 hn with h | h
                · subst h; exact hl
                · exact ha n h
              · intro ⟨hs, ha⟩
                refine (ih _ _ _).2 ⟨?_, ?_⟩
                · exact hs.trans (Finset.subset_insert _ _)
                · exact Finset.insert_subset_insert _ ha

/-- **C10** (confirmed, implicit invariant).  The run starts with both
statistics sets empty; both substitution paths preserve the invariant that
every substituted name is a key of the data record and every missing name
is not (so a discovered name goes to exactly one of the two sets, decided
by key membership, and the sets stay disjoint); the fragmented-run path
also preserves containment of both sets in the discovered set, so the
substituted and missing counts never exceed the discovered count. -/
theorem c10_conjuntos_disjuntos_e_contidos
    (fmtMon : Value → Option Texto → Texto) (meta : Texto → Option CampoInfo)
    (dados : Dados) :
    (InvC10 dados EstadoCampos.inicial ∧ InvFrag EstadoCampos.inicial) ∧
    (∀ texto st, InvC10 dados st →
      InvC10 dados (substituirCampos fmtMon meta dados texto st).2) ∧
    (∀ runs st, InvC10 dados st →
      InvC10 dados (processarRunsFragmentados fmtMon meta dados runs st).2.1) ∧
    (∀ runs st, InvFrag st →
      InvFrag (processarRunsFragmentados fmtMon meta dados runs st).2.1) ∧
    (∀ st : EstadoCampos, InvC10 dados st →
      Disjoint st.campos_substituidos st.campos_ausentes) ∧
    (∀ st : EstadoCampos, InvFrag st →
      st.campos_substituidos.card ≤ st.campos_encontrados.card ∧
      st.campos_ausentes.card ≤ st.campos_encontrados.card) := by
  refine ⟨?_, ?_, ?_, ?_, ?_, ?_⟩
  · constructor <;> simp [InvC10, InvFrag, EstadoCampos.inicial]
  · intro texto st h
    exact substituirCamposGo_inv fmtMon meta dados _ _ _ st h
  · intro runs st h
    exact (fragGo_inv fmtMon meta dados runs _ _ st false).1 h
  · intro runs st h
    exact (fragGo_inv fmtMon meta dados runs _ _ st false).2 h
  · intro st h
    refine Finset.disjoint_left.2 ?_
    intro a hs' ht'
    exact (h.1 a hs') (h.2 a ht')
  · intro st h
    exact ⟨Finset.card_le_card h.1, Finset.card_le_card h.2⟩
